import Mathlib

/-!
Shallow embedding of the core of the wol-mcp-server repository
(src/wol/types.ts, src/wol/utils.ts, src/wol/videoService.ts) and proofs of
the specification claims about it.

Modelling conventions:
* TypeScript thrown values are modelled by `Except JSError`; a `JSError` with
  `code = none` models a plain `Error` without the `WOLError.code` field.
* HTTP responses are modelled as a status number plus a body string
  (`response.text()` is assumed to succeed and yield the body).
* Network effects (fetch) and the cheerio HTML parser are passed in as
  function parameters: the embedded control flow around them is the code's.
* JavaScript numbers are modelled by `Nat`/`Rat` where the code's arithmetic
  is exact on the inputs of interest.
-/

set_option maxRecDepth 10000

namespace Wol

/-- Error kinds of the WOLError taxonomy (src/wol/types.ts). -/
inductive WOLCode where
  | SERVICE_UNAVAILABLE
  | NOT_FOUND
  | INVALID_QUERY
  | NETWORK_ERROR
  | PARSE_ERROR
  deriving DecidableEq, Repr

/-- Model of a thrown JavaScript `Error`: `code = none` is a plain `Error`,
`code = some c` is a `WOLError` carrying kind `c` (src/wol/types.ts). -/
structure JSError where
  code : Option WOLCode
  message : String
  deriving DecidableEq, Repr

/-- Embedding of `createWOLError` (src/wol/utils.ts): an `Error` with a
`code` field attached. The `details` payload is not modelled. -/
def createWOLError (code : WOLCode) (message : String) : JSError :=
  { code := some code, message := message }

/-- A plain `new Error(message)` without a `code` field. -/
def plainError (message : String) : JSError :=
  { code := none, message := message }

/-- Model of a fetch `Response`: status code and body text. -/
structure HttpResponse where
  status : Nat
  body : String
  deriving DecidableEq, Repr

/-- Embedding of the `catch` blocks at the top of the public operations
(`WOLService.search`, `WOLService.getDocumentByUrl`,
`VideoService.getVideoSubtitles`): an error that already carries a `code`
is rethrown unchanged; any other error is wrapped into a `NETWORK_ERROR`
whose message prepends the operation context. -/
def rethrowTyped (context : String) (r : Except JSError α) : Except JSError α :=
  match r with
  | .ok v => .ok v
  | .error e =>
      match e.code with
      | some _ => .error e
      | none => .error (createWOLError .NETWORK_ERROR (context ++ e.message))

/-- Observable trace of one `fetchWithRetry` call: how many attempts were
started and which backoff delays (milliseconds) were slept between them. -/
structure FetchTrace where
  attemptsMade : Nat
  delaysMs : List Nat
  deriving DecidableEq, Repr

/-- Embedding of the retry loop body of `fetchWithRetry`
(src/wol/videoService.ts, both `VideoService.fetchWithRetry` and
`WOLService.fetchWithRetry`, whose loop logic is identical): `attempts i`
is the outcome of the `fetch` on loop iteration `i` (`.ok` = the promise
resolved to a response, `.error` = it threw).  On a thrown attempt other
than the last, the loop sleeps `2 ^ i * 1000` ms and retries; the last
thrown attempt's error propagates unchanged.  The pair also returns the
trace of attempts made and delays slept. -/
def fetchWithRetryFrom (attempts : Nat → Except JSError HttpResponse)
    (retries : Nat) (i : Nat) : Except JSError HttpResponse × FetchTrace :=
  if _h : i < retries then
    match attempts i with
    | .ok r => (.ok r, { attemptsMade := 1, delaysMs := [] })
    | .error e =>
        if i = retries - 1 then
          (.error e, { attemptsMade := 1, delaysMs := [] })
        else
          let rest := fetchWithRetryFrom attempts retries (i + 1)
          (rest.1,
           { attemptsMade := rest.2.attemptsMade + 1,
             delaysMs := 2 ^ i * 1000 :: rest.2.delaysMs })
  else
    (.error (plainError "Max retries exceeded"), { attemptsMade := 0, delaysMs := [] })
termination_by retries - i
decreasing_by omega

/-- Embedding of `fetchWithRetry(url, retries)`: run the loop from
iteration 0.  `retries` is `MAX_RETRIES = 3` at every call site. -/
def fetchWithRetry (attempts : Nat → Except JSError HttpResponse)
    (retries : Nat) : Except JSError HttpResponse × FetchTrace :=
  fetchWithRetryFrom attempts retries 0

/-- One entry of the language routing table `wol_languages.json`
(the `lp` / `rsconf` pair for a language code). -/
structure LangEntry where
  lp : String
  rsconf : String
  deriving DecidableEq, Repr

/-- Character-list implementation of JavaScript `.toLowerCase()` (ASCII
range, which covers every string the claims touch). -/
def lowerString (s : String) : String :=
  (s.toList.map Char.toLower).asString

/-- Embedding of `normalizeIsoLanguageCode` (src/wol/utils.ts): default the
missing (or empty, which is falsy) language to "en", lower-case, take the
segment before the first hyphen or underscore, and default an empty
segment to "en". -/
def normalizeIsoLanguageCode (language : Option String) : String :=
  let raw := match language with
    | some l => if l = "" then "en" else l
    | none => "en"
  let input := lowerString raw
  let primary := (input.toList.takeWhile (fun c => c != '-' && c != '_')).asString
  if primary = "" then "en" else primary

/-- Embedding of `resolveWolConfig` (src/wol/utils.ts).  The routing table
(`wol_languages.json`, data not shipped in src/) is abstracted as the
`mapping` parameter; a missing or empty (falsy) `lp`/`rsconf` field falls
back exactly as the `||` chains in the source do. -/
def resolveWolConfig (mapping : String → Option LangEntry)
    (language : Option String) : String × String :=
  let norm := normalizeIsoLanguageCode language
  let fallbackLp := if norm = "en" then "e" else norm
  match mapping norm with
  | some entry =>
      (if entry.lp = "" then fallbackLp else entry.lp,
       if entry.rsconf = "" then "r1" else entry.rsconf)
  | none => (fallbackLp, "r1")

/-- Pagination record of a search response (src/wol/types.ts). -/
structure SearchPagination where
  totalResults : Nat
  pageSize : Nat
  totalPages : Nat
  currentPage : Nat
  deriving DecidableEq, Repr

/-- Embedding of the regex search `([\d][\d.,]*)` used on the results-count
badge text: find the first digit and take it together with the following
run of digits, dots and commas. -/
def firstNumberToken : List Char → Option (List Char)
  | [] => none
  | c :: rest =>
      if c.isDigit then
        some (c :: rest.takeWhile (fun d => d.isDigit || d == '.' || d == ','))
      else firstNumberToken rest

/-- Value of a digit string read in base 10 (the effect of `parseInt(s, 10)`
on an all-digit string; exact over `Nat`). -/
def digitsToNat (cs : List Char) : Nat :=
  cs.foldl (fun acc c => acc * 10 + (c.toNat - 48)) 0

/-- Embedding of the `totalResults` extraction in
`ContentParser.parseSearchResults` (src/wol/utils.ts): regex-match the first
number token of the `#resultsCount` text, strip `.`/`,` thousands
separators, parse as an integer; 0 when no match. -/
def parseTotalResults (countText : String) : Nat :=
  match firstNumberToken countText.toList with
  | some tok => digitsToNat (tok.filter Char.isDigit)
  | none => 0

/-- Embedding of the pagination computation at the end of
`ContentParser.parseSearchResults` (src/wol/utils.ts): fixed page size 40,
`totalPages = ceil(totalResults / 40)` when positive else 1, and the
current page read elsewhere from the navigation marker. -/
def parseSearchPagination (countText : String) (currentPage : Nat) : SearchPagination :=
  let totalResults := parseTotalResults countText
  { totalResults := totalResults
    pageSize := 40
    totalPages := if totalResults > 0 then (totalResults + 39) / 40 else 1
    currentPage := currentPage }

/-- Search result categories (src/wol/types.ts). -/
inductive ResultType where
  | key_publication
  | document_result
  | subheading
  deriving DecidableEq, Repr

/-- One search result record (src/wol/types.ts); fields not used by any
claim are kept as plain data. -/
structure SearchResult where
  title : String
  url : String
  snippet : String
  publication : String
  occurrences : Option Nat
  documentId : Option String
  resultType : Option ResultType
  subheadings : Option (List String)
  contextSnippets : Option (List String)
  deriving DecidableEq, Repr

/-- Search response record (src/wol/types.ts). -/
structure SearchResponse where
  results : List SearchResult
  pagination : SearchPagination
  deriving DecidableEq, Repr

/-- Search options record (src/wol/types.ts). -/
structure SearchOptions where
  useOperators : Option Bool := none
  scope : Option String := none
  publications : Option (List String) := none
  language : Option String := none
  limit : Option Nat := none
  sort : Option String := none
  page : Option Nat := none
  deriving DecidableEq, Repr

/-- Characters accepted by `SearchOperatorParser.validateOperators`
(src/wol/utils.ts): the regex class `[\p{L}\p{N}\s&+|\/\^%!"\*\?#\\()_-]`.
The Unicode letter/number properties are modelled by `Char.isAlpha` /
`Char.isDigit` (the ASCII fragment); no claim depends on the non-ASCII
extent of the class. -/
def validOperatorChar (c : Char) : Bool :=
  c.isAlpha || c.isDigit || c.isWhitespace ||
    "&+|/^%!\x22*?#\\()_-".toList.contains c

/-- Embedding of `SearchOperatorParser.validateOperators` (src/wol/utils.ts):
the anchored regex requires a non-empty string of accepted characters. -/
def validateOperators (query : String) : Bool :=
  query != "" && query.toList.all validOperatorChar

/-- Body of `WOLService.search` (src/wol/videoService.ts, WOLService part)
inside its try block.  `fetchResult` is the outcome of
`fetchWithRetry(searchUrl)` (with `response.text()` folded into the body),
and `parseResults` abstracts `ContentParser.parseSearchResults` applied to
the body HTML.  Mirrors the source: operator-validation gate, the 404
empty-result special case with `currentPage = options.page ?? 1`, the
502/503 mapping, then parse, partition by result type, and the truthy
`options.limit` slice applied to document results only. -/
def searchBody (query : String) (options : SearchOptions)
    (fetchResult : Except JSError HttpResponse)
    (parseResults : String → SearchResponse) : Except JSError SearchResponse :=
  if validateOperators query = false ∧ options.useOperators = some true then
    .error (createWOLError .INVALID_QUERY "Invalid characters or operators in query")
  else
    match fetchResult with
    | .error e => .error e
    | .ok response =>
        if response.status = 404 then
          .ok { results := []
                pagination :=
                  { totalResults := 0, pageSize := 40, totalPages := 1,
                    currentPage := options.page.getD 1 } }
        else if response.status = 502 ∨ response.status = 503 then
          .error (createWOLError .SERVICE_UNAVAILABLE "WOL service temporarily unavailable")
        else
          let parsed := parseResults response.body
          let keyPublications :=
            parsed.results.filter (fun r => r.resultType = some .key_publication)
          let documentResults :=
            parsed.results.filter (fun r => r.resultType = some .document_result)
          let limitedDocuments :=
            match options.limit with
            | some l => if l = 0 then documentResults else documentResults.take l
            | none => documentResults
          .ok { results := keyPublications ++ limitedDocuments
                pagination := parsed.pagination }

/-- Embedding of `WOLService.search`: the try body wrapped by the catch
that rethrows coded errors and wraps anything else as NETWORK_ERROR. -/
def search (query : String) (options : SearchOptions)
    (fetchResult : Except JSError HttpResponse)
    (parseResults : String → SearchResponse) : Except JSError SearchResponse :=
  rethrowTyped "Search failed: " (searchBody query options fetchResult parseResults)

/-- Model of a parsed WHATWG `URL`, restricted to the
`scheme://[userinfo@]host[:port]/path?query` shapes the repository handles.
Not modelled (no claim depends on them): percent-decoding of query
parameters, path normalization, punycode, the hash fragment, and
non-special schemes without `//`. -/
structure URLModel where
  scheme : String
  hostname : String
  port : String
  pathname : String
  searchParams : List (String × String)
  deriving DecidableEq, Repr

/-- Characters allowed in a URL scheme after the initial letter. -/
def isSchemeChar (c : Char) : Bool :=
  c.isAlpha || c.isDigit || c == '+' || c == '-' || c == '.'

/-- Split a character list at a separator, like `String.split` on one char. -/
def splitOnChar (sep : Char) : List Char → List (List Char)
  | [] => [[]]
  | c :: rest =>
      match splitOnChar sep rest with
      | [] => if c == sep then [[], []] else [[c]]
      | g :: gs => if c == sep then [] :: g :: gs else (c :: g) :: gs

/-- One `k=v` query piece: key before the first `=`, value after it
(empty when there is no `=`). -/
def parseQueryPair (piece : List Char) : String × String :=
  let k := piece.takeWhile (fun c => c != '=')
  match piece.dropWhile (fun c => c != '=') with
  | _ :: v => (k.asString, v.asString)
  | [] => (k.asString, "")

/-- Model of `URLSearchParams` construction: split the query on `&`,
drop empty pieces, split each piece at its first `=`. -/
def parseQueryString (qs : List Char) : List (String × String) :=
  ((splitOnChar '&' qs).filter (fun p => p ≠ [])).map parseQueryPair

/-- Model of `new URL(s)` on `scheme://...` inputs: `none` models the
constructor throwing.  The hostname is lowercased (as WHATWG parsing
does), userinfo is dropped, the port split off, an empty path becomes
"/", and the query string is parsed into `searchParams`. -/
def parseURLChars (cs : List Char) : Option URLModel :=
  let scheme := cs.takeWhile (fun c => c != ':')
  match cs.dropWhile (fun c => c != ':') with
  | ':' :: '/' :: '/' :: rest1 =>
      match scheme with
      | [] => none
      | c0 :: schemeRest =>
          if c0.isAlpha && schemeRest.all isSchemeChar then
            let authority := rest1.takeWhile (fun c => c != '/' && c != '?' && c != '#')
            let rest2 := rest1.dropWhile (fun c => c != '/' && c != '?' && c != '#')
            let hostport :=
              if authority.contains '@' then
                (authority.reverse.takeWhile (fun c => c != '@')).reverse
              else authority
            let host := hostport.takeWhile (fun c => c != ':')
            let port :=
              match hostport.dropWhile (fun c => c != ':') with
              | _ :: p => p
              | [] => []
            if host = [] then none
            else
              let pathPart := rest2.takeWhile (fun c => c != '?' && c != '#')
              let afterPath := rest2.dropWhile (fun c => c != '?' && c != '#')
              let queryChars :=
                match afterPath with
                | '?' :: qrest => qrest.takeWhile (fun c => c != '#')
                | _ => []
              some { scheme := scheme.asString
                     hostname := lowerString host.asString
                     port := port.asString
                     pathname := if pathPart = [] then "/" else pathPart.asString
                     searchParams := parseQueryString queryChars }
          else none
  | _ => none

/-- Model of `new URL(urlString)` (throwing modelled as `none`). -/
def parseURL (s : String) : Option URLModel :=
  parseURLChars s.toList

/-- Serialization of the query parameter list, modelling
`URLSearchParams.toString()` (percent-encoding not modelled). -/
def serializeParams (ps : List (String × String)) : String :=
  String.intercalate "&" (ps.map (fun kv => kv.1 ++ "=" ++ kv.2))

/-- Serialization of a parsed URL, modelling `URL.toString()` after the
code has assigned `parsed.search`. -/
def serializeURL (u : URLModel) : String :=
  u.scheme ++ "://" ++ u.hostname ++ (if u.port = "" then "" else ":" ++ u.port) ++
    u.pathname ++
    (if u.searchParams = [] then "" else "?" ++ serializeParams u.searchParams)

/-- Bool test that `pre` starts `cs`. -/
def listStartsWith : List Char → List Char → Bool
  | _, [] => true
  | [], _ :: _ => false
  | c :: cs, p :: ps => c == p && listStartsWith cs ps

/-- Bool test that `needle` occurs contiguously inside `hs`. -/
def listContainsSub : List Char → List Char → Bool
  | hs, needle =>
      listStartsWith hs needle ||
        match hs with
        | [] => false
        | _ :: t => listContainsSub t needle

/-- Bool test that `suf` is a suffix of `s` (JavaScript `endsWith`). -/
def strEndsWith (s suf : String) : Bool :=
  listStartsWith s.toList.reverse suf.toList.reverse

/-- Bool test that `sub` occurs inside `s` (JavaScript `includes`, and the
unanchored substring regex tests). -/
def strContainsSub (s sub : String) : Bool :=
  listContainsSub s.toList sub.toList

/-- The host test of `validateAndNormalizeDocumentURL` (src/wol/utils.ts):
`host.endsWith("jw.org") && host.includes("wol")` on the lowercased host. -/
def hostOk (u : URLModel) : Bool :=
  strEndsWith (lowerString u.hostname) "jw.org" &&
    strContainsSub (lowerString u.hostname) "wol"

/-- The path test of `validateAndNormalizeDocumentURL` (src/wol/utils.ts):
the case-insensitive regex `/\/wol\/d\//i` on the pathname. -/
def pathOk (u : URLModel) : Bool :=
  strContainsSub (lowerString u.pathname) "/wol/d/"

/-- The allow-list filter of `validateAndNormalizeDocumentURL`: keep only
the query parameters named `q` or `p`, in order, values untouched. -/
def allowedParams (ps : List (String × String)) : List (String × String) :=
  ps.filter (fun kv => kv.1 == "q" || kv.1 == "p")

/-- Embedding of `URLBuilder.validateAndNormalizeDocumentURL`
(src/wol/utils.ts).  Note every failure throws a plain `Error` (no `code`
field). -/
def validateAndNormalizeDocumentURL (urlString : String) : Except JSError String :=
  match parseURL urlString with
  | none => .error (plainError "Invalid URL")
  | some parsed =>
      if !(hostOk parsed) then
        .error (plainError "URL must be a jw.org WOL document")
      else if !(pathOk parsed) then
        .error (plainError "URL must point to a WOL document (contains /wol/d/)")
      else
        .ok (serializeURL { parsed with searchParams := allowedParams parsed.searchParams })

/-- The `Document` record (src/wol/types.ts); optional metadata payloads
not used by any claim are omitted. -/
structure DocumentM where
  id : String
  title : String
  content : String
  publication : String
  url : String
  language : String
  deriving DecidableEq, Repr

/-- Body of `WOLService.getDocumentByUrl` (src/wol/videoService.ts,
WOLService part) inside its try block.  `fetch` abstracts
`fetchWithRetry` (body folded in), `parseDoc` abstracts
`ContentParser.parseDocument` (which may throw), and `fmt` abstracts the
non-breaking-space normalization plus markdown/plain conversion applied
to `document.content` for the requested format. -/
def getDocumentByUrlBody (url : String) (format : String)
    (fetch : String → Except JSError HttpResponse)
    (parseDoc : String → String → Except JSError DocumentM)
    (fmt : String → String → String) : Except JSError DocumentM :=
  match validateAndNormalizeDocumentURL url with
  | .error e => .error e
  | .ok documentUrl =>
      match fetch documentUrl with
      | .error e => .error e
      | .ok response =>
          if response.status = 404 then
            .error (createWOLError .NOT_FOUND "Document not found")
          else if response.status = 502 ∨ response.status = 503 then
            .error (createWOLError .SERVICE_UNAVAILABLE "WOL service temporarily unavailable")
          else
            match parseDoc response.body documentUrl with
            | .error e => .error e
            | .ok document =>
                .ok { document with
                        url := documentUrl
                        content := fmt format document.content }

/-- Embedding of `WOLService.getDocumentByUrl`: the try body wrapped by
the catch that rethrows coded errors and wraps anything else (including
the plain errors of `validateAndNormalizeDocumentURL`) as NETWORK_ERROR. -/
def getDocumentByUrl (url : String) (format : String)
    (fetch : String → Except JSError HttpResponse)
    (parseDoc : String → String → Except JSError DocumentM)
    (fmt : String → String → String) : Except JSError DocumentM :=
  rethrowTyped "Document retrieval failed: "
    (getDocumentByUrlBody url format fetch parseDoc fmt)

/-- Identifier kinds recognized by `parseVideoUrl`
(src/wol/videoService.ts, ParsedVideoParams.type). -/
inductive VideoIdType where
  | pub
  | docid
  deriving DecidableEq, Repr

/-- Parsed video URL parameters (src/wol/videoService.ts,
ParsedVideoParams of the docid-aware VideoService). -/
structure ParsedVideoParams where
  id : String
  track : String
  language : String
  type : VideoIdType
  deriving DecidableEq, Repr

/-- `searchParams.get(key)`: the first value for the key, or none. -/
def getParam (u : URLModel) (key : String) : Option String :=
  match u.searchParams.find? (fun kv => kv.1 == key) with
  | some kv => some kv.2
  | none => none

/-- A `params.get(k)` use in a JavaScript `||` chain: an empty string is
falsy, so it behaves like absence. -/
def getParamTruthy (u : URLModel) (key : String) : Option String :=
  match getParam u key with
  | some v => if v = "" then none else some v
  | none => none

/-- The language lookup of `parseVideoUrl`:
`params.get("wtlocale") || params.get("appLanguage")`. -/
def videoLanguageOf (u : URLModel) : Option String :=
  match getParamTruthy u "wtlocale" with
  | some v => some v
  | none => getParamTruthy u "appLanguage"

/-- The identifier lookup of `parseVideoUrl`:
`params.get("lank") || params.get("item")`. -/
def videoLankOf (u : URLModel) : Option String :=
  match getParamTruthy u "lank" with
  | some v => some v
  | none => getParamTruthy u "item"

/-- Characters of the regex class `[a-zA-Z0-9-]` (pub identifier bodies). -/
def isPubIdChar (c : Char) : Bool :=
  c.isAlpha || c.isDigit || c == '-'

/-- Characters matched by the regex `.` without the `s` flag: everything
except the line terminators U+000A, U+000D, U+2028, U+2029. -/
def isDotChar (c : Char) : Bool :=
  c.toNat != 10 && c.toNat != 13 && c.toNat != 8232 && c.toNat != 8233

/-- ASCII lowercase of a character list. -/
def lowerChars (cs : List Char) : List Char :=
  cs.map Char.toLower

/-- Strip a case-insensitive literal `pre` (given lowercased) off the
front of `cs`, the effect of a `^literal` regex anchor under the `i`
flag. -/
def stripCi : List Char → List Char → Option (List Char)
  | [], cs => some cs
  | _ :: _, [] => none
  | p :: ps, c :: cs => if c.toLower == p then stripCi ps cs else none

/-- The `(.+)_VIDEO$` tail (case-insensitive): the input must end in
`_VIDEO` preceded by at least one `.`-matchable character; returns the
group before that final `_VIDEO`. -/
def matchTailVideo (rest2 : List Char) : Option (List Char) :=
  if rest2.length < 7 then none
  else
    let g2 := rest2.take (rest2.length - 6)
    let tail6 := rest2.drop (rest2.length - 6)
    if lowerChars tail6 == "_video".toList && g2.all isDotChar then some g2
    else none

/-- Embedding of the regex `/^pub-([a-zA-Z0-9-]+)_(.+)_VIDEO$/i` of
`parseVideoUrl` (src/wol/videoService.ts): the `i` flag makes the
literals case-insensitive; group 1 is the maximal run of `[a-zA-Z0-9-]`
(which excludes `_`, so the match is deterministic), then a literal `_`,
then group 2 is everything up to the final `_VIDEO` (anchored by `$`). -/
def matchPubLank (lank : String) : Option (String × String) :=
  match stripCi "pub-".toList lank.toList with
  | none => none
  | some rest =>
      if rest.takeWhile isPubIdChar = [] then none
      else
        match rest.dropWhile isPubIdChar with
        | '_' :: rest2 =>
            match matchTailVideo rest2 with
            | some g2 => some ((rest.takeWhile isPubIdChar).asString, g2.asString)
            | none => none
        | _ => none

/-- Embedding of the regex `/^docid-(\d+)_(.+)_VIDEO$/i` of
`parseVideoUrl`: group 1 is the maximal digit run, then `_`, then group 2
up to the final `_VIDEO`. -/
def matchDocidLank (lank : String) : Option (String × String) :=
  match stripCi "docid-".toList lank.toList with
  | none => none
  | some rest =>
      if rest.takeWhile Char.isDigit = [] then none
      else
        match rest.dropWhile Char.isDigit with
        | '_' :: rest2 =>
            match matchTailVideo rest2 with
            | some g2 => some ((rest.takeWhile Char.isDigit).asString, g2.asString)
            | none => none
        | _ => none

/-- Embedding of `VideoService.parseVideoUrl` (src/wol/videoService.ts,
docid-aware version) on an already parsed URL: language from `wtlocale`
or `appLanguage`, identifier from `lank` or `item`, then the pub and
docid shapes in order; anything else is an INVALID_QUERY whose message
names the unrecognized identifier.  Single-quote marks in the source's
message texts are omitted. -/
def parseVideoParams (u : URLModel) : Except JSError ParsedVideoParams :=
  match videoLanguageOf u with
  | none =>
      .error (createWOLError .INVALID_QUERY
        "Could not determine video language from URL. Expected wtlocale or appLanguage parameter.")
  | some language =>
      match videoLankOf u with
      | none =>
          .error (createWOLError .INVALID_QUERY
            "Could not find video identifier in URL. Expected lank or item parameter.")
      | some lank =>
          match matchPubLank lank with
          | some g => .ok { id := g.1, track := g.2, language := language, type := .pub }
          | none =>
              match matchDocidLank lank with
              | some g => .ok { id := g.1, track := g.2, language := language, type := .docid }
              | none =>
                  .error (createWOLError .INVALID_QUERY
                    ("Unrecognized video identifier format: " ++ lank ++
                      ". Expected formats like pub-\x7bid\x7d_\x7btrack\x7d_VIDEO or docid-\x7bid\x7d_\x7btrack\x7d_VIDEO"))

/-- Embedding of `VideoService.parseVideoUrl` on the raw URL string
(`new URL` failure is an INVALID_QUERY). -/
def parseVideoUrl (url : String) : Except JSError ParsedVideoParams :=
  match parseURL url with
  | none => .error (createWOLError .INVALID_QUERY "Invalid URL format")
  | some u => parseVideoParams u

/-- JavaScript `trim()` on a character list (ASCII whitespace). -/
def trimChars (cs : List Char) : List Char :=
  ((cs.dropWhile Char.isWhitespace).reverse.dropWhile Char.isWhitespace).reverse

/-- JavaScript `trim()` on a string. -/
def trimString (s : String) : String :=
  (trimChars s.toList).asString

/-- JavaScript `s.split("\n")`. -/
def splitLines (s : String) : List String :=
  (splitOnChar '\n' s.toList).map List.asString

/-- JavaScript `lines.join("\n")`. -/
def joinNl : List String → String
  | [] => ""
  | [l] => l
  | l :: rest => l ++ "\n" ++ joinNl rest

/-- `parseInt(s, 10)` on the digit-leading strings the VTT code feeds it:
the leading digit run, `none` modelling NaN when there is none. -/
def jsParseIntDigits (cs : List Char) : Option Nat :=
  let ds := cs.takeWhile Char.isDigit
  if ds = [] then none else some (digitsToNat ds)

/-- `parseFloat` on the `[\d:.]`-shaped strings the VTT code feeds it:
optional integer digits, optional `.` fraction, NaN (`none`) when no digit
leads.  Exact over `Rat` (JavaScript float rounding is not modelled). -/
def jsParseFloat (cs : List Char) : Option ℚ :=
  let intPart := cs.takeWhile Char.isDigit
  match cs.dropWhile Char.isDigit with
  | '.' :: frac =>
      let fracDigits := frac.takeWhile Char.isDigit
      if intPart = [] ∧ fracDigits = [] then none
      else some ((digitsToNat intPart : ℚ) +
        (digitsToNat fracDigits : ℚ) / ((10 : ℚ) ^ fracDigits.length))
  | _ => if intPart = [] then none else some (digitsToNat intPart)

/-- Embedding of `VideoService.parseVttTimestamp` (src/wol/videoService.ts):
split on `:`; three parts are `HH:MM:SS.mmm`, two parts are `MM:SS.mmm`,
anything else is 0.  `none` models a NaN result (a NaN operand makes the
whole sum NaN). -/
def parseVttTimestamp (timestamp : String) : Option ℚ :=
  match splitOnChar ':' (trimChars timestamp.toList) with
  | [h, m, s] => do
      let hours ← jsParseIntDigits h
      let minutes ← jsParseIntDigits m
      let seconds ← jsParseFloat s
      pure ((hours : ℚ) * 3600 + (minutes : ℚ) * 60 + seconds)
  | [m, s] => do
      let minutes ← jsParseIntDigits m
      let seconds ← jsParseFloat s
      pure ((minutes : ℚ) * 60 + seconds)
  | _ => some 0

/-- JavaScript `x >= y` where `x` may be NaN (NaN compares false). -/
def jsGe (x : Option ℚ) (y : ℚ) : Bool :=
  match x with
  | some v => y ≤ v
  | none => false

/-- JavaScript `x <= y` where `x` may be NaN (NaN compares false). -/
def jsLe (x : Option ℚ) (y : ℚ) : Bool :=
  match x with
  | some v => v ≤ y
  | none => false

/-- Characters of the regex class `[\d:.]`. -/
def isTsBodyChar (c : Char) : Bool :=
  c.isDigit || c == ':' || c == '.'

/-- A match of `\d+:[\d:.]+` at the head of `cs` (both runs greedy; the
classes exclude every character the rest of the timestamp pattern needs,
so the greedy match is the regex match): the matched token and the
remainder. -/
def matchTsToken (cs : List Char) : Option (List Char × List Char) :=
  if cs.takeWhile Char.isDigit = [] then none
  else
    match cs.dropWhile Char.isDigit with
    | c :: rest =>
        if c == ':' && !(rest.takeWhile isTsBodyChar).isEmpty then
          some (cs.takeWhile Char.isDigit ++ ':' :: rest.takeWhile isTsBodyChar,
                rest.dropWhile isTsBodyChar)
        else none
    | [] => none

/-- A match of `(\d+:[\d:.]+)\s*-->\s*(\d+:[\d:.]+)` at the head of `cs`:
the two captured groups. -/
def matchArrowAt (cs : List Char) : Option (List Char × List Char) :=
  match matchTsToken cs with
  | none => none
  | some g1 =>
      if listStartsWith (g1.2.dropWhile Char.isWhitespace) "-->".toList then
        match matchTsToken
            (((g1.2.dropWhile Char.isWhitespace).drop 3).dropWhile Char.isWhitespace) with
        | some g2 => some (g1.1, g2.1)
        | none => none
      else none

/-- The unanchored regex search for the timestamp-arrow pattern of
`filterVttByTimeRange`: leftmost match position wins. -/
def searchArrow : List Char → Option (List Char × List Char)
  | [] => none
  | c :: rest =>
      match matchArrowAt (c :: rest) with
      | some r => some r
      | none => searchArrow rest

/-- The cue-text continuation condition of the inner loops of
`filterVttByTimeRange`: `lines[i].trim() !== "" && !lines[i].includes("-->")`. -/
def isCueTextLine (l : String) : Bool :=
  !(trimChars l.toList).isEmpty && !(strContainsSub l "-->")

/-- The header skip of `filterVttByTimeRange`: advance to the first line
containing `-->`. -/
def skipVttHeader (lines : List String) : List String :=
  lines.dropWhile (fun l => !(strContainsSub l "-->"))

/-- Embedding of the cue loop of `VideoService.filterVttByTimeRange`
(src/wol/videoService.ts): on a timestamp line whose regex match parses to
`cueStart`/`cueEnd`, keep the cue (timestamp line, its text lines, and a
blank separator) exactly when `cueEnd >= startTime && cueStart <= endTime`,
else skip its text lines; non-matching and non-timestamp lines are
consumed without output. -/
def processCues (startTime endTime : ℚ) : List String → List String
  | [] => []
  | line :: rest =>
      if strContainsSub line "-->" then
        match searchArrow line.toList with
        | some g =>
            if jsGe (parseVttTimestamp g.2.asString) startTime &&
               jsLe (parseVttTimestamp g.1.asString) endTime then
              line :: (rest.takeWhile isCueTextLine ++ [""] ++
                processCues startTime endTime (rest.dropWhile isCueTextLine))
            else processCues startTime endTime (rest.dropWhile isCueTextLine)
        | none => processCues startTime endTime rest
      else processCues startTime endTime rest
termination_by lines => lines.length
decreasing_by
  all_goals simp only [List.length_cons]
  all_goals first
    | exact Nat.lt_succ_of_le ((List.dropWhile_sublist _).length_le)
    | omega

/-- Embedding of `VideoService.filterVttByTimeRange`: split into lines,
skip the header, process the cues after a fresh `WEBVTT` header, join
with newlines and trim. -/
def filterVttByTimeRange (vttContent : String) (startTime endTime : ℚ) : String :=
  trimString (joinNl ("WEBVTT" :: "" ::
    processCues startTime endTime (skipVttHeader (splitLines vttContent))))

/-- Fuel-indexed scan for the global replace of the non-greedy tag
pattern `<[^>]+>` with "": at a `<` with at least one non-`>` character
before a closing `>`, drop through that `>`; otherwise copy the
character.  Each step consumes at least one character, so `fuel = length`
never runs out (the fuel only makes the recursion structural). -/
def stripTagsF : Nat → List Char → List Char
  | _, [] => []
  | 0, cs => cs
  | fuel + 1, c :: rest =>
      if c == '<' &&
          !(rest.takeWhile (fun x => x != '>')).isEmpty &&
          !(rest.drop (rest.takeWhile (fun x => x != '>')).length).isEmpty then
        stripTagsF fuel (rest.drop ((rest.takeWhile (fun x => x != '>')).length + 1))
      else
        c :: stripTagsF fuel rest

/-- Global replace of `<[^>]+>` with "". -/
def stripTags (cs : List Char) : List Char :=
  stripTagsF cs.length cs

/-- Fuel-indexed scan for the global replace of the style-block pattern
(open brace, one or more non-close-brace characters, close brace)
with "". -/
def stripBracesF : Nat → List Char → List Char
  | _, [] => []
  | 0, cs => cs
  | fuel + 1, c :: rest =>
      if c == '\x7b' &&
          !(rest.takeWhile (fun x => x != '\x7d')).isEmpty &&
          !(rest.drop (rest.takeWhile (fun x => x != '\x7d')).length).isEmpty then
        stripBracesF fuel (rest.drop ((rest.takeWhile (fun x => x != '\x7d')).length + 1))
      else
        c :: stripBracesF fuel rest

/-- Global replace of the style-block pattern with "". -/
def stripBraces (cs : List Char) : List Char :=
  stripBracesF cs.length cs

/-- Length of a match of `key` followed by `\d+%` at the head of `cs`
(the pattern of the `line:`/`position:` strips), `none` when it does not
match here. -/
def matchKeyNumPercentLen (key cs : List Char) : Option Nat :=
  if listStartsWith cs key then
    let ds := (cs.drop key.length).takeWhile Char.isDigit
    if ds = [] then none
    else
      match (cs.drop key.length).drop ds.length with
      | '%' :: _ => some (key.length + ds.length + 1)
      | _ => none
  else none

/-- Fuel-indexed scan for the global replace of `key\d+%` with "" (every
real match consumes at least the `%`, so skipping `n - 1` characters of
the tail is the match skip; each step consumes at least one character, so
`fuel = length` never runs out). -/
def replaceKeyNumPercentF (key : List Char) : Nat → List Char → List Char
  | _, [] => []
  | 0, cs => cs
  | fuel + 1, c :: rest =>
      match matchKeyNumPercentLen key (c :: rest) with
      | some n => replaceKeyNumPercentF key fuel (rest.drop (n - 1))
      | none => c :: replaceKeyNumPercentF key fuel rest

/-- Global replace of `key\d+%` with "". -/
def replaceKeyNumPercent (key : List Char) (cs : List Char) : List Char :=
  replaceKeyNumPercentF key cs.length cs

/-- Characters of the regex class `\w`. -/
def isWordChar (c : Char) : Bool :=
  c.isAlpha || c.isDigit || c == '_'

/-- Length of a match of `key` followed by `\w+` at the head of `cs`
(the pattern of the `align:` strip). -/
def matchKeyWordLen (key cs : List Char) : Option Nat :=
  if listStartsWith cs key then
    let ws := (cs.drop key.length).takeWhile isWordChar
    if ws = [] then none else some (key.length + ws.length)
  else none

/-- Fuel-indexed scan for the global replace of `key\w+` with "". -/
def replaceKeyWordF (key : List Char) : Nat → List Char → List Char
  | _, [] => []
  | 0, cs => cs
  | fuel + 1, c :: rest =>
      match matchKeyWordLen key (c :: rest) with
      | some n => replaceKeyWordF key fuel (rest.drop (n - 1))
      | none => c :: replaceKeyWordF key fuel rest

/-- Global replace of `key\w+` with "". -/
def replaceKeyWord (key : List Char) (cs : List Char) : List Char :=
  replaceKeyWordF key cs.length cs

/-- The per-line cleaning of `vttToPlainText`: strip tags, style blocks,
`line:\d+%`, `position:\d+%`, `align:\w+`, backslashes, then trim. -/
def cleanCueText (cs : List Char) : List Char :=
  trimChars ((replaceKeyWord "align:".toList
    (replaceKeyNumPercent "position:".toList
      (replaceKeyNumPercent "line:".toList
        (stripBraces (stripTags cs))))).filter (fun c => c != '\\'))

/-- Phase 1 of `vttToPlainText` (src/wol/videoService.ts, docid-aware
version): walk the lines tracking `inCue`; drop the header, blank lines,
timestamp lines and numeric cue ids; clean and collect the cue text
lines. -/
def vttCollectText : List String → Bool → List String
  | [], _ => []
  | line :: rest, inCue =>
      let trimmed := trimString line
      if trimmed = "WEBVTT" ∨ trimmed = "" then vttCollectText rest false
      else if strContainsSub trimmed "-->" then vttCollectText rest true
      else if trimmed.toList.all Char.isDigit then vttCollectText rest inCue
      else if inCue then
        let cleanText := (cleanCueText trimmed.toList).asString
        if cleanText = "" then vttCollectText rest inCue
        else cleanText :: vttCollectText rest inCue
      else vttCollectText rest inCue

/-- The sentence-end test of `vttToPlainText`: the regex
`[.!?:;]["']?\s*$` — terminal punctuation, optional quote, optional
trailing whitespace. -/
def endsSentence (s : String) : Bool :=
  match (s.toList.reverse.dropWhile Char.isWhitespace) with
  | [] => false
  | c :: rest =>
      if c == '\x22' || c == '\x27' then
        match rest with
        | [] => false
        | d :: _ => d == '.' || d == '!' || d == '?' || d == ':' || d == ';'
      else
        c == '.' || c == '!' || c == '?' || c == ':' || c == ';'

/-- Phase 2 of `vttToPlainText`: accumulate fragments into sentences.  A
fragment that is already a suffix of the accumulator is skipped; otherwise
it is appended with a space unless the accumulator ends a sentence, in
which case the accumulator is flushed and the fragment starts fresh. -/
def joinSentencesGo : List String → String → List String
  | [], currentSentence => if currentSentence = "" then [] else [trimString currentSentence]
  | line :: rest, currentSentence =>
      if strEndsWith currentSentence line then joinSentencesGo rest currentSentence
      else if currentSentence ≠ "" ∧ endsSentence currentSentence = false then
        joinSentencesGo rest (currentSentence ++ " " ++ line)
      else if currentSentence ≠ "" then
        trimString currentSentence :: joinSentencesGo rest line
      else joinSentencesGo rest line

/-- The sentence-joining pass over collected fragments, starting from an
empty accumulator and joining the flushed sentences with newlines. -/
def joinSentences (textLines : List String) : String :=
  joinNl (joinSentencesGo textLines "")

/-- Embedding of `VideoService.vttToPlainText` (src/wol/videoService.ts,
docid-aware version): collect cleaned cue text lines, then join them into
sentences. -/
def vttToPlainText (vttContent : String) : String :=
  joinSentences (vttCollectText (splitLines vttContent) false)

/-- Embedding of `VideoService.cleanVtt`: strip ` line:\d+%`,
` position:\d+%`, ` align:\w+` (note the leading spaces) and trim. -/
def cleanVtt (vttContent : String) : String :=
  trimString ((replaceKeyWord " align:".toList
    (replaceKeyNumPercent " position:".toList
      (replaceKeyNumPercent " line:".toList vttContent.toList))).asString)

/-- The subtitle-track payload of a pub-media video file (its
modifiedDatetime/checksum fields play no role here). -/
structure SubtitlesInfo where
  url : String
  deriving DecidableEq, Repr

/-- One pub-media video file entry (src/wol/videoService.ts,
PubMediaVideoFile). -/
structure PubMediaVideoFile where
  title : String
  label : String
  duration : ℚ
  subtitles : Option SubtitlesInfo
  trackImage : Option String
  deriving DecidableEq, Repr

/-- The pub-media API response (src/wol/videoService.ts,
PubMediaResponse): `files` maps a language key to an optional MP4 list. -/
structure PubMediaResponse where
  pubName : String
  pub : String
  track : Nat
  files : List (String × Option (List PubMediaVideoFile))
  deriving DecidableEq, Repr

/-- `metadata.files[language]` lookup. -/
def lookupLang (files : List (String × Option (List PubMediaVideoFile)))
    (lang : String) : Option (Option (List PubMediaVideoFile)) :=
  match files.find? (fun kv => kv.1 == lang) with
  | some kv => some kv.2
  | none => none

/-- Video metadata of a subtitle result (src/wol/types.ts). -/
structure VideoMetadata where
  title : String
  publication : String
  pub : String
  track : Nat
  language : String
  duration : ℚ
  availableResolutions : List String
  thumbnailUrl : Option String
  deriving DecidableEq, Repr

/-- The subtitles payload of a subtitle result (src/wol/types.ts). -/
structure SubtitlesOut where
  vttUrl : String
  rawVtt : String
  plainText : String
  deriving DecidableEq, Repr

/-- A video subtitle result (src/wol/types.ts). -/
structure VideoSubtitleResult where
  metadata : VideoMetadata
  subtitles : SubtitlesOut
  deriving DecidableEq, Repr

/-- The VTT content after the optional time filter of
`getVideoSubtitles`: filtered when either bound was passed (missing
bounds default to 0 and the video duration), untouched otherwise. -/
def effectiveVtt (startTime endTime : Option ℚ) (duration : ℚ)
    (vttFetched : String) : String :=
  if startTime.isSome || endTime.isSome then
    filterVttByTimeRange vttFetched (startTime.getD 0) (endTime.getD duration)
  else vttFetched

/-- Body of `VideoService.getVideoSubtitles` (src/wol/videoService.ts,
docid-aware version) inside its try block.  `metaResult` abstracts
`fetchVideoMetadata` (including its 404/non-OK mapping) and `vttResult`
abstracts `fetchVttContent`; the control flow around them is the
source's: parse the URL, find the language's MP4 list, require a first
video with a subtitle track, fetch and optionally time-filter the VTT,
then emit cleaned VTT and plain text masked by the requested format. -/
def getVideoSubtitlesBody (url : String) (format : String)
    (startTime endTime : Option ℚ)
    (metaResult : Except JSError PubMediaResponse)
    (vttResult : Except JSError String) : Except JSError VideoSubtitleResult :=
  match parseVideoUrl url with
  | .error e => .error e
  | .ok params =>
      match metaResult with
      | .error e => .error e
      | .ok metadata =>
          match lookupLang metadata.files params.language with
          | some (some (firstVideo :: restVideos)) =>
              (match firstVideo.subtitles with
               | none => .error (createWOLError .NOT_FOUND "No subtitles available for this video")
               | some subInfo =>
                   match vttResult with
                   | .error e => .error e
                   | .ok vttFetched =>
                       let vttContent := effectiveVtt startTime endTime firstVideo.duration vttFetched
                       let cleanedVtt := cleanVtt vttContent
                       let plainText := vttToPlainText vttContent
                       .ok { metadata :=
                               { title := firstVideo.title
                                 publication := metadata.pubName
                                 pub := metadata.pub
                                 track := metadata.track
                                 language := params.language
                                 duration := firstVideo.duration
                                 availableResolutions :=
                                   (firstVideo :: restVideos).map (fun v => v.label)
                                 thumbnailUrl := firstVideo.trackImage }
                             subtitles :=
                               { vttUrl := subInfo.url
                                 rawVtt := if format = "text" then "" else cleanedVtt
                                 plainText := if format = "vtt" then "" else plainText } })
          | _ =>
              .error (createWOLError .NOT_FOUND "No video files found for the specified language")

/-- Embedding of `VideoService.getVideoSubtitles`: the try body wrapped by
the catch that rethrows coded errors and wraps anything else as
NETWORK_ERROR. -/
def getVideoSubtitles (url : String) (format : String)
    (startTime endTime : Option ℚ)
    (metaResult : Except JSError PubMediaResponse)
    (vttResult : Except JSError String) : Except JSError VideoSubtitleResult :=
  rethrowTyped "Failed to get video subtitles: "
    (getVideoSubtitlesBody url format startTime endTime metaResult vttResult)

/-- One abstract VTT cue: two timestamp texts and the cue text lines. -/
structure VttCue where
  startTs : String
  endTs : String
  text : List String
  deriving DecidableEq, Repr

/-- The timestamp line of a cue as the upstream serializes it. -/
def cueTimestampLine (c : VttCue) : String :=
  c.startTs ++ " --> " ++ c.endTs

/-- The lines of one cue block: timestamp line, text lines, blank
separator. -/
def cueLines (c : VttCue) : List String :=
  cueTimestampLine c :: (c.text ++ [""])

/-- A well-formed VTT file for a cue list: header, blank line, cue
blocks. -/
def vttOfCues (cues : List VttCue) : String :=
  joinNl ("WEBVTT" :: "" :: (cues.map cueLines).flatten)

/-- The retention condition of the claim:
`cueEnd >= startTime && cueStart <= endTime` on the parsed timestamps. -/
def keepCue (startTime endTime : ℚ) (c : VttCue) : Bool :=
  jsGe (parseVttTimestamp c.endTs) startTime &&
    jsLe (parseVttTimestamp c.startTs) endTime

/-- Shape check for a timestamp text the arrow regex can consume whole:
a digit run, a colon, then a nonempty `[\d:.]` run. -/
def tsShaped (ts : String) : Bool :=
  decide (ts.toList.takeWhile Char.isDigit ≠ []) &&
    (match ts.toList.dropWhile Char.isDigit with
     | c :: rest => c == ':' && decide (rest ≠ []) && rest.all isTsBodyChar
     | [] => false)

/-- Well-formedness of a cue for the filter theorem: both timestamps
shaped, every text line nonblank without `-->` and without raw
newlines. -/
def cueWellFormed (c : VttCue) : Prop :=
  tsShaped c.startTs = true ∧ tsShaped c.endTs = true ∧
    (∀ l ∈ c.text, isCueTextLine l = true) ∧
    (∀ l ∈ c.text, ∀ ch ∈ l.toList, ch ≠ '\n')

/-- The concrete claim-example cue spanning seconds 10 to 15. -/
def cue1015 : VttCue :=
  { startTs := "00:10.000", endTs := "00:15.000", text := ["Hello cue"] }

/-- Concrete attempt sequence for the C2 witness: the first attempt throws,
the second resolves to a 500 response. -/
def attemptsW : Nat → Except JSError HttpResponse :=
  fun i => if i = 0 then .error (plainError "socket hang up") else .ok { status := 500, body := "oops" }

/-- Decidable equality for modelled operation outcomes. -/
instance {ε α : Type} [DecidableEq ε] [DecidableEq α] : DecidableEq (Except ε α) :=
  fun a b =>
    match a, b with
    | .ok x, .ok y =>
        if h : x = y then isTrue (by rw [h]) else isFalse (by intro hc; cases hc; exact h rfl)
    | .error x, .error y =>
        if h : x = y then isTrue (by rw [h]) else isFalse (by intro hc; cases hc; exact h rfl)
    | .ok _, .error _ => isFalse (by intro hc; cases hc)
    | .error _, .ok _ => isFalse (by intro hc; cases hc)

/-- Concrete pub-media response for the C9 witness: one English video
with a subtitle track. -/
def metaV : Except JSError PubMediaResponse :=
  .ok { pubName := "Pub Name"
        pub := "jwbvod25"
        track := 41
        files := [("E", some [{ title := "T", label := "720p", duration := 100,
                                subtitles := some { url := "https://cdn/vtt" },
                                trackImage := none }])] }

/-- Concrete fetched VTT content for the C9 witness. -/
def vttV : Except JSError String :=
  .ok "WEBVTT\n\n00:01.000 --> 00:05.000\nHello there.\n"

/-- The C9 witness result value. -/
def resV : VideoSubtitleResult :=
  { metadata := { title := "T", publication := "Pub Name", pub := "jwbvod25", track := 41,
                  language := "E", duration := 100, availableResolutions := ["720p"],
                  thumbnailUrl := none }
    subtitles := { vttUrl := "https://cdn/vtt",
                   rawVtt := "WEBVTT\n\n00:01.000 --> 00:05.000\nHello there.",
                   plainText := "Hello there." } }

/-- Concrete document URL for the C8 witness. -/
def urlW : String :=
  "https://wol.jw.org/en/wol/d/r1/lp-e/1102023100?q=test&foo=bar&p=par"

/-- The parse of `urlW` under the URL model. -/
def uW : URLModel :=
  { scheme := "https"
    hostname := "wol.jw.org"
    port := ""
    pathname := "/en/wol/d/r1/lp-e/1102023100"
    searchParams := [("q", "test"), ("foo", "bar"), ("p", "par")] }

/-! ## Theorems -/

/-- Unfolding lemma: a resolved attempt is returned immediately. -/
theorem fetchWithRetryFrom_ok {attempts : Nat → Except JSError HttpResponse}
    {retries i : Nat} {r : HttpResponse} (h : i < retries)
    (hr : attempts i = .ok r) :
    fetchWithRetryFrom attempts retries i = (.ok r, { attemptsMade := 1, delaysMs := [] }) := by
  rw [fetchWithRetryFrom, dif_pos h, hr]

/-- Unfolding lemma: a thrown last attempt propagates its error. -/
theorem fetchWithRetryFrom_err_last {attempts : Nat → Except JSError HttpResponse}
    {retries i : Nat} {e : JSError} (h : i < retries) (hlast : i = retries - 1)
    (he : attempts i = .error e) :
    fetchWithRetryFrom attempts retries i = (.error e, { attemptsMade := 1, delaysMs := [] }) := by
  rw [fetchWithRetryFrom, dif_pos h, he]
  simp [hlast]

/-- Unfolding lemma: a thrown attempt before the last sleeps `2 ^ i * 1000`
ms and retries from `i + 1`. -/
theorem fetchWithRetryFrom_err_step {attempts : Nat → Except JSError HttpResponse}
    {retries i : Nat} {e : JSError} (h : i < retries) (hnot : i ≠ retries - 1)
    (he : attempts i = .error e) :
    fetchWithRetryFrom attempts retries i =
      ((fetchWithRetryFrom attempts retries (i + 1)).1,
       { attemptsMade := (fetchWithRetryFrom attempts retries (i + 1)).2.attemptsMade + 1,
         delaysMs := 2 ^ i * 1000 :: (fetchWithRetryFrom attempts retries (i + 1)).2.delaysMs }) := by
  rw [fetchWithRetryFrom, dif_pos h, he]
  simp [hnot]

/-- Scenario: the first attempt resolves. -/
theorem fetchWithRetry3_ok0 {attempts : Nat → Except JSError HttpResponse}
    {r : HttpResponse} (h0 : attempts 0 = .ok r) :
    fetchWithRetry attempts 3 = (.ok r, { attemptsMade := 1, delaysMs := [] }) := by
  unfold fetchWithRetry
  rw [fetchWithRetryFrom_ok (by norm_num) h0]

/-- Scenario: the first attempt throws, the second resolves. -/
theorem fetchWithRetry3_ok1 {attempts : Nat → Except JSError HttpResponse}
    {e0 : JSError} {r : HttpResponse}
    (h0 : attempts 0 = .error e0) (h1 : attempts 1 = .ok r) :
    fetchWithRetry attempts 3 = (.ok r, { attemptsMade := 2, delaysMs := [1000] }) := by
  unfold fetchWithRetry
  rw [fetchWithRetryFrom_err_step (by norm_num) (by norm_num) h0,
    fetchWithRetryFrom_ok (by norm_num) h1]
  rfl

/-- Scenario: the first two attempts throw, the third resolves. -/
theorem fetchWithRetry3_ok2 {attempts : Nat → Except JSError HttpResponse}
    {e0 e1 : JSError} {r : HttpResponse}
    (h0 : attempts 0 = .error e0) (h1 : attempts 1 = .error e1)
    (h2 : attempts 2 = .ok r) :
    fetchWithRetry attempts 3 = (.ok r, { attemptsMade := 3, delaysMs := [1000, 2000] }) := by
  unfold fetchWithRetry
  rw [fetchWithRetryFrom_err_step (by norm_num) (by norm_num) h0,
    fetchWithRetryFrom_err_step (by norm_num) (by norm_num) h1,
    fetchWithRetryFrom_ok (by norm_num) h2]
  rfl

/-- Scenario: all three attempts throw; the third error propagates. -/
theorem fetchWithRetry3_err {attempts : Nat → Except JSError HttpResponse}
    {e0 e1 e2 : JSError}
    (h0 : attempts 0 = .error e0) (h1 : attempts 1 = .error e1)
    (h2 : attempts 2 = .error e2) :
    fetchWithRetry attempts 3 = (.error e2, { attemptsMade := 3, delaysMs := [1000, 2000] }) := by
  unfold fetchWithRetry
  rw [fetchWithRetryFrom_err_step (by norm_num) (by norm_num) h0,
    fetchWithRetryFrom_err_step (by norm_num) (by norm_num) h1,
    fetchWithRetryFrom_err_last (by norm_num) (by norm_num) h2]
  rfl

/-- C2: with `maxRetries = 3`, `fetchWithRetry` makes at most 3 attempts;
the first attempt that resolves to a response is returned immediately
(after delays `2 ^ j * 1000` ms for each earlier thrown attempt `j`), and
when all 3 attempts throw, the third attempt's error propagates unchanged
after delays of 1000 and 2000 ms. -/
theorem fetchWithRetry_C2 (attempts : Nat → Except JSError HttpResponse) :
    (fetchWithRetry attempts 3).2.attemptsMade ≤ 3 ∧
    (∀ k r, k < 3 → attempts k = .ok r →
      (∀ j, j < k → ∃ e, attempts j = .error e) →
      (fetchWithRetry attempts 3).1 = .ok r ∧
      (fetchWithRetry attempts 3).2.attemptsMade = k + 1 ∧
      (fetchWithRetry attempts 3).2.delaysMs =
        (List.range k).map (fun j => 2 ^ j * 1000)) ∧
    ((∀ j, j < 3 → ∃ e, attempts j = .error e) →
      ∃ e, attempts 2 = .error e ∧
        (fetchWithRetry attempts 3).1 = .error e ∧
        (fetchWithRetry attempts 3).2.attemptsMade = 3 ∧
        (fetchWithRetry attempts 3).2.delaysMs = [1000, 2000]) := by
  refine ⟨?_, ?_, ?_⟩
  · rcases h0 : attempts 0 with e0 | r0
    · rcases h1 : attempts 1 with e1 | r1
      · rcases h2 : attempts 2 with e2 | r2
        · rw [fetchWithRetry3_err h0 h1 h2]
        · rw [fetchWithRetry3_ok2 h0 h1 h2]
      · rw [fetchWithRetry3_ok1 h0 h1]
        norm_num
    · rw [fetchWithRetry3_ok0 h0]
      norm_num
  · intro k r hk hok hprev
    match k with
    | 0 =>
        rw [fetchWithRetry3_ok0 hok]
        exact ⟨rfl, rfl, rfl⟩
    | 1 =>
        obtain ⟨e0, h0⟩ := hprev 0 (by norm_num)
        rw [fetchWithRetry3_ok1 h0 hok]
        exact ⟨rfl, rfl, rfl⟩
    | 2 =>
        obtain ⟨e0, h0⟩ := hprev 0 (by norm_num)
        obtain ⟨e1, h1⟩ := hprev 1 (by norm_num)
        rw [fetchWithRetry3_ok2 h0 h1 hok]
        exact ⟨rfl, rfl, rfl⟩
  · intro hall
    obtain ⟨e0, h0⟩ := hall 0 (by norm_num)
    obtain ⟨e1, h1⟩ := hall 1 (by norm_num)
    obtain ⟨e2, h2⟩ := hall 2 (by norm_num)
    refine ⟨e2, h2, ?_⟩
    rw [fetchWithRetry3_err h0 h1 h2]
    exact ⟨rfl, rfl, rfl⟩

/-- Witness for C2 at `attemptsW`: one retry after a 1000 ms delay, then
the 500 response is returned as an ordinary response. -/
theorem fetchWithRetry_C2_witness :
    (1 : Nat) < 3 ∧ attemptsW 1 = .ok { status := 500, body := "oops" } ∧
    (fetchWithRetry attemptsW 3).1 = .ok { status := 500, body := "oops" } ∧
    (fetchWithRetry attemptsW 3).2.attemptsMade = 2 ∧
    (fetchWithRetry attemptsW 3).2.delaysMs = (List.range 1).map (fun j => 2 ^ j * 1000) := by
  refine ⟨by norm_num, rfl, ?_⟩
  exact (fetchWithRetry_C2 attemptsW).2.1 1 { status := 500, body := "oops" }
    (by norm_num) rfl
    (fun j hj => by
      interval_cases j
      exact ⟨plainError "socket hang up", rfl⟩)

/-- C7: in the pagination returned by `parseSearchPagination` (for every
count-badge text, hence every extracted non-negative `totalResults`),
`totalPages = max 1 (ceil (totalResults / 40))` with `pageSize` fixed at
40; in particular `totalPages ≥ 1`. -/
theorem parseSearchPagination_C7 (countText : String) (currentPage : Nat) :
    (parseSearchPagination countText currentPage).totalPages =
      max 1 (((parseSearchPagination countText currentPage).totalResults + 39) / 40) ∧
    (parseSearchPagination countText currentPage).pageSize = 40 ∧
    1 ≤ (parseSearchPagination countText currentPage).totalPages := by
  have key : ∀ n : Nat,
      (if n > 0 then (n + 39) / 40 else 1) = max 1 ((n + 39) / 40) ∧
      1 ≤ (if n > 0 then (n + 39) / 40 else 1) := by
    intro n
    rcases Nat.eq_zero_or_pos n with h | h
    · subst h
      norm_num
    · rw [if_pos h]
      omega
  exact ⟨(key (parseTotalResults countText)).1, rfl, (key (parseTotalResults countText)).2⟩

/-- C6: for every language whose normalized code is absent from the routing
table, `resolveWolConfig` yields `lp =` the normalized code (except "en"
which maps to "e") and `rev = "r1"`. -/
theorem resolveWolConfig_C6 (mapping : String → Option LangEntry)
    (language : Option String)
    (habsent : mapping (normalizeIsoLanguageCode language) = none) :
    resolveWolConfig mapping language =
      (if normalizeIsoLanguageCode language = "en" then "e"
       else normalizeIsoLanguageCode language, "r1") := by
  unfold resolveWolConfig
  simp only [habsent]

/-- Witness for C6 at the empty table and language "xx-BR" (normalized
code "xx", not "en"). -/
theorem resolveWolConfig_C6_witness :
    (fun _ => (none : Option LangEntry)) (normalizeIsoLanguageCode (some "xx-BR")) = none ∧
    normalizeIsoLanguageCode (some "xx-BR") = "xx" ∧
    resolveWolConfig (fun _ => none) (some "xx-BR") = ("xx", "r1") := by
  refine ⟨rfl, by decide, ?_⟩
  have h := resolveWolConfig_C6 (fun _ => none) (some "xx-BR") rfl
  rw [h]
  decide

/-- C1: a search whose upstream fetch resolved to a status-404 response
(and whose operator-validation gate did not fire, so the fetch really
happened) returns successfully with no results and pagination
`totalResults 0, pageSize 40, totalPages 1, currentPage = requested page
(1 when no page option was given)`. -/
theorem search_404_C1 (query : String) (options : SearchOptions)
    (response : HttpResponse) (parseResults : String → SearchResponse)
    (hgate : validateOperators query = true ∨ options.useOperators ≠ some true)
    (h404 : response.status = 404) :
    search query options (.ok response) parseResults =
      .ok { results := []
            pagination :=
              { totalResults := 0, pageSize := 40, totalPages := 1,
                currentPage := options.page.getD 1 } } := by
  have hg : ¬ (validateOperators query = false ∧ options.useOperators = some true) := by
    rcases hgate with h | h
    · intro hc
      rw [h] at hc
      exact absurd hc.1 (by simp)
    · intro hc
      exact h hc.2
  obtain ⟨s, b⟩ := response
  obtain rfl : s = 404 := h404
  unfold search searchBody rethrowTyped
  rw [if_neg hg]
  rfl

/-- Witness for C1 at a concrete valid query, page option 2, and a 404
response. -/
theorem search_404_C1_witness :
    (validateOperators "hello" = true ∨
      ({ page := some 2 } : SearchOptions).useOperators ≠ some true) ∧
    search "hello" { page := some 2 } (.ok { status := 404, body := "" })
        (fun _ => { results := [], pagination := ⟨0, 0, 0, 0⟩ }) =
      .ok { results := []
            pagination :=
              { totalResults := 0, pageSize := 40, totalPages := 1, currentPage := 2 } } := by
  refine ⟨Or.inl (by decide), ?_⟩
  exact search_404_C1 "hello" { page := some 2 } { status := 404, body := "" }
    (fun _ => { results := [], pagination := ⟨0, 0, 0, 0⟩ }) (Or.inl (by decide)) rfl

/-- C3 counterexample: on the non-URL input "not a url",
`validateAndNormalizeDocumentURL` throws a plain error with no kind at
all, and `getDocumentByUrl` surfaces it as NETWORK_ERROR — not as the
INVALID_QUERY kind the claim states. -/
theorem getDocumentByUrl_C3_counterexample :
    validateAndNormalizeDocumentURL "not a url" = .error (plainError "Invalid URL") ∧
    (plainError "Invalid URL").code = none ∧
    getDocumentByUrl "not a url" "markdown" (fun _ => .ok { status := 200, body := "" })
        (fun _ _ => .ok { id := "", title := "", content := "", publication := "",
                          url := "", language := "" })
        (fun _ c => c) =
      .error (createWOLError .NETWORK_ERROR "Document retrieval failed: Invalid URL") ∧
    (createWOLError .NETWORK_ERROR "Document retrieval failed: Invalid URL").code ≠
      some .INVALID_QUERY := by
  refine ⟨rfl, rfl, rfl, by decide⟩

/-- C3 (amended): for every input that is not a well-formed URL, or whose
host fails the library-host test, or whose path fails the document-path
test, `validateAndNormalizeDocumentURL` throws an untyped (code-less)
error, and `getDocumentByUrl` on that input therefore fails with a
NETWORK_ERROR-kind error (not INVALID_QUERY). -/
theorem getDocumentByUrl_C3_amended (urlString format : String)
    (fetch : String → Except JSError HttpResponse)
    (parseDoc : String → String → Except JSError DocumentM)
    (fmt : String → String → String)
    (hbad : parseURL urlString = none ∨
      ∃ u, parseURL urlString = some u ∧
        (hostOk u = false ∨ (hostOk u = true ∧ pathOk u = false))) :
    (∃ msg, validateAndNormalizeDocumentURL urlString = .error (plainError msg)) ∧
    ∃ msg, getDocumentByUrl urlString format fetch parseDoc fmt =
      .error (createWOLError .NETWORK_ERROR ("Document retrieval failed: " ++ msg)) := by
  obtain ⟨msg, hmsg⟩ :
      ∃ msg, validateAndNormalizeDocumentURL urlString = .error (plainError msg) := by
    rcases hbad with h | ⟨u, hu, hcase⟩
    · exact ⟨"Invalid URL", by unfold validateAndNormalizeDocumentURL; rw [h]⟩
    · rcases hcase with hh | ⟨hh, hp⟩
      · refine ⟨"URL must be a jw.org WOL document", ?_⟩
        unfold validateAndNormalizeDocumentURL
        rw [hu]
        simp [hh]
      · refine ⟨"URL must point to a WOL document (contains /wol/d/)", ?_⟩
        unfold validateAndNormalizeDocumentURL
        rw [hu]
        simp [hh, hp]
  refine ⟨⟨msg, hmsg⟩, ⟨msg, ?_⟩⟩
  unfold getDocumentByUrl getDocumentByUrlBody rethrowTyped
  rw [hmsg]
  rfl

/-- Witness for the amended C3 at the concrete input "not a url". -/
theorem getDocumentByUrl_C3_witness :
    parseURL "not a url" = none ∧
    ((∃ msg, validateAndNormalizeDocumentURL "not a url" = .error (plainError msg)) ∧
      ∃ msg, getDocumentByUrl "not a url" "markdown" (fun _ => .ok { status := 200, body := "" })
          (fun _ _ => .ok { id := "", title := "", content := "", publication := "",
                            url := "", language := "" })
          (fun _ c => c) =
        .error (createWOLError .NETWORK_ERROR ("Document retrieval failed: " ++ msg))) := by
  refine ⟨rfl, ?_⟩
  exact getDocumentByUrl_C3_amended "not a url" "markdown" (fun _ => .ok { status := 200, body := "" })
    (fun _ _ => .ok { id := "", title := "", content := "", publication := "",
                      url := "", language := "" })
    (fun _ c => c) (Or.inl rfl)

/-- C8: an input whose parse passes the host and path tests is normalized
to the serialization of the parsed URL whose query is filtered to exactly
the `q`/`p` parameters (order and values preserved); inputs that fail to
parse, fail the host test, or fail the path test are rejected. -/
theorem validateURL_C8 (urlString : String) (u : URLModel)
    (hparse : parseURL urlString = some u)
    (hhost : hostOk u = true) (hpath : pathOk u = true) :
    validateAndNormalizeDocumentURL urlString =
      .ok (serializeURL { u with searchParams := allowedParams u.searchParams }) ∧
    (∀ k v, (k, v) ∈ allowedParams u.searchParams ↔
      ((k, v) ∈ u.searchParams ∧ (k = "q" ∨ k = "p"))) ∧
    (∀ s, parseURL s = none →
      validateAndNormalizeDocumentURL s = .error (plainError "Invalid URL")) ∧
    (∀ s v, parseURL s = some v → hostOk v = false →
      validateAndNormalizeDocumentURL s = .error (plainError "URL must be a jw.org WOL document")) ∧
    (∀ s v, parseURL s = some v → hostOk v = true → pathOk v = false →
      validateAndNormalizeDocumentURL s =
        .error (plainError "URL must point to a WOL document (contains /wol/d/)")) := by
  refine ⟨?_, ?_, ?_, ?_, ?_⟩
  · unfold validateAndNormalizeDocumentURL
    rw [hparse]
    simp [hhost, hpath]
  · intro k v
    simp [allowedParams, List.mem_filter]
  · intro s h
    unfold validateAndNormalizeDocumentURL
    rw [h]
  · intro s v h hh
    unfold validateAndNormalizeDocumentURL
    rw [h]
    simp [hh]
  · intro s v h hh hp
    unfold validateAndNormalizeDocumentURL
    rw [h]
    simp [hh, hp]

/-- Witness for C8 at a concrete library document URL carrying `q`, a
stranger `foo`, and `p`: the canonical URL keeps exactly `q` and `p`. -/
theorem validateURL_C8_witness :
    parseURL urlW = some uW ∧ hostOk uW = true ∧ pathOk uW = true ∧
    validateAndNormalizeDocumentURL urlW =
      .ok "https://wol.jw.org/en/wol/d/r1/lp-e/1102023100?q=test&p=par" ∧
    allowedParams uW.searchParams = [("q", "test"), ("p", "par")] := by
  refine ⟨rfl, by decide, by decide, ?_, by decide⟩
  have h := (validateURL_C8 urlW uW rfl (by decide) (by decide)).1
  rw [h]
  rfl

/-- toList distributes over String append. -/
theorem toList_append (s u : String) : (s ++ u).toList = s.toList ++ u.toList :=
  String.data_append s u

/-- takeWhile and dropWhile of a split list whose left part satisfies the
predicate and whose right part starts with a failing element. -/
theorem takeWhile_dropWhile_append {α : Type} {p : α → Bool} :
    ∀ {l r : List α}, (∀ c ∈ l, p c = true) →
      (∀ c, r.head? = some c → p c = false) →
      ((l ++ r).takeWhile p = l ∧ (l ++ r).dropWhile p = r)
  | [], r, _, hr => by
      cases r with
      | nil => simp
      | cons c cs =>
          have hc := hr c rfl
          simp [List.takeWhile_cons, List.dropWhile_cons, hc]
  | a :: l, r, hl, hr => by
      have ha := hl a (by simp)
      have ih := takeWhile_dropWhile_append (l := l) (r := r)
        (fun c hc => hl c (by simp [hc])) hr
      simp [List.takeWhile_cons, List.dropWhile_cons, ha, ih.1, ih.2]

/-- stripCi removes a literal "pub-" prefix. -/
theorem stripCi_pub (X : List Char) : stripCi "pub-".toList ("pub-".toList ++ X) = some X := rfl

/-- stripCi removes a literal "docid-" prefix. -/
theorem stripCi_docid (X : List Char) :
    stripCi "docid-".toList ("docid-".toList ++ X) = some X := rfl

/-- matchTailVideo recovers the group in front of a final literal
`_VIDEO`. -/
theorem matchTailVideo_eq (t : List Char) (ht : t ≠ [])
    (hdot : ∀ c ∈ t, isDotChar c = true) :
    matchTailVideo (t ++ "_VIDEO".toList) = some t := by
  have hv : ("_VIDEO".toList : List Char).length = 6 := by decide
  have hlen : (t ++ "_VIDEO".toList).length = t.length + 6 := by
    rw [List.length_append, hv]
  have hpos : 1 ≤ t.length := List.length_pos.mpr ht
  have hall : t.all isDotChar = true := List.all_eq_true.mpr hdot
  unfold matchTailVideo
  rw [hlen]
  rw [if_neg (by omega)]
  have hsub : t.length + 6 - 6 = t.length := by omega
  rw [hsub, List.take_left, List.drop_left]
  rw [if_pos (by rw [hall]; decide)]

/-- A nonempty string has a nonempty character list. -/
theorem toList_ne_nil {s : String} (h : s ≠ "") : s.toList ≠ [] := by
  intro hc
  apply h
  have := congrArg List.asString hc
  rwa [String.asString_toList] at this

/-- The pub regex accepts every string of the shape
`pub-{id}_{track}_VIDEO` with a nonempty `[a-zA-Z0-9-]` id and a nonempty
newline-free track, and recovers the two groups. -/
theorem matchPubLank_shape (i t : String) (hi : i ≠ "")
    (hic : ∀ c ∈ i.toList, isPubIdChar c = true) (ht : t ≠ "")
    (htc : ∀ c ∈ t.toList, isDotChar c = true) :
    matchPubLank ("pub-" ++ i ++ "_" ++ t ++ "_VIDEO") = some (i, t) := by
  have hsplit : ("pub-" ++ i ++ "_" ++ t ++ "_VIDEO").toList =
      "pub-".toList ++ (i.toList ++ ('_' :: (t.toList ++ "_VIDEO".toList))) := by
    rw [toList_append, toList_append, toList_append, toList_append]
    simp [List.append_assoc]
  have hr : ∀ c : Char,
      (('_' :: (t.toList ++ "_VIDEO".toList)).head? = some c) → isPubIdChar c = false := by
    intro c hc
    simp only [List.head?] at hc
    rw [← Option.some_inj.mp hc]
    decide
  have htw := takeWhile_dropWhile_append (p := isPubIdChar)
    (l := i.toList) (r := '_' :: (t.toList ++ "_VIDEO".toList)) hic hr
  unfold matchPubLank
  rw [hsplit, stripCi_pub]
  simp only [htw.1, htw.2]
  rw [if_neg (toList_ne_nil hi)]
  rw [matchTailVideo_eq t.toList (toList_ne_nil ht) htc]
  simp only [Option.some.injEq, Prod.mk.injEq]
  exact ⟨String.asString_toList _, String.asString_toList _⟩

/-- The docid regex accepts every string of the shape
`docid-{id}_{track}_VIDEO` with a nonempty digit id and a nonempty
newline-free track, and recovers the two groups. -/
theorem matchDocidLank_shape (d t : String) (hd : d ≠ "")
    (hdc : ∀ c ∈ d.toList, c.isDigit = true) (ht : t ≠ "")
    (htc : ∀ c ∈ t.toList, isDotChar c = true) :
    matchDocidLank ("docid-" ++ d ++ "_" ++ t ++ "_VIDEO") = some (d, t) := by
  have hsplit : ("docid-" ++ d ++ "_" ++ t ++ "_VIDEO").toList =
      "docid-".toList ++ (d.toList ++ ('_' :: (t.toList ++ "_VIDEO".toList))) := by
    rw [toList_append, toList_append, toList_append, toList_append]
    simp [List.append_assoc]
  have hr : ∀ c : Char,
      (('_' :: (t.toList ++ "_VIDEO".toList)).head? = some c) → c.isDigit = false := by
    intro c hc
    simp only [List.head?] at hc
    rw [← Option.some_inj.mp hc]
    decide
  have htw := takeWhile_dropWhile_append (p := Char.isDigit)
    (l := d.toList) (r := '_' :: (t.toList ++ "_VIDEO".toList)) hdc hr
  unfold matchDocidLank
  rw [hsplit, stripCi_docid]
  simp only [htw.1, htw.2]
  rw [if_neg (toList_ne_nil hd)]
  rw [matchTailVideo_eq t.toList (toList_ne_nil ht) htc]
  simp only [Option.some.injEq, Prod.mk.injEq]
  exact ⟨String.asString_toList _, String.asString_toList _⟩

/-- C5: `parseVideoUrl` recognizes exactly the two identifier shapes —
`pub-{id}_{track}_VIDEO` (id may contain hyphens, yielding type pub) and
`docid-{id}_{track}_VIDEO` (numeric id, yielding type docid); every
identifier matching neither shape fails with an INVALID_QUERY whose
message names the unrecognized string; and the concrete URL with
`lank=pub-jwbvod25_41_VIDEO&wtlocale=E` resolves to
id "jwbvod25", track "41", language "E", type pub. -/
theorem parseVideoUrl_C5 :
    (∀ i t : String, i ≠ "" → (∀ c ∈ i.toList, isPubIdChar c = true) →
      t ≠ "" → (∀ c ∈ t.toList, isDotChar c = true) →
      matchPubLank ("pub-" ++ i ++ "_" ++ t ++ "_VIDEO") = some (i, t)) ∧
    (∀ d t : String, d ≠ "" → (∀ c ∈ d.toList, c.isDigit = true) →
      t ≠ "" → (∀ c ∈ t.toList, isDotChar c = true) →
      matchDocidLank ("docid-" ++ d ++ "_" ++ t ++ "_VIDEO") = some (d, t)) ∧
    (∀ (u : URLModel) (lang lank : String),
      videoLanguageOf u = some lang → videoLankOf u = some lank →
      matchPubLank lank = none → matchDocidLank lank = none →
      parseVideoParams u = .error (createWOLError .INVALID_QUERY
        ("Unrecognized video identifier format: " ++ lank ++
          ". Expected formats like pub-\x7bid\x7d_\x7btrack\x7d_VIDEO or docid-\x7bid\x7d_\x7btrack\x7d_VIDEO"))) ∧
    parseVideoUrl "https://www.jw.org/finder?srcid=jwlshare&wtlocale=E&lank=pub-jwbvod25_41_VIDEO" =
      .ok { id := "jwbvod25", track := "41", language := "E", type := .pub } := by
  refine ⟨matchPubLank_shape, matchDocidLank_shape, ?_, rfl⟩
  intro u lang lank hlang hlank hpub hdocid
  unfold parseVideoParams
  simp only [hlang, hlank, hpub, hdocid]

/-- Witness for C5: the shape lemmas applied at a hyphenated pub id and at
a numeric docid, and the rejection case applied at an unrecognized
identifier. -/
theorem parseVideoUrl_C5_witness :
    matchPubLank "pub-jwb-133_1_VIDEO" = some ("jwb-133", "1") ∧
    matchDocidLank "docid-1112024040_1_VIDEO" = some ("1112024040", "1") ∧
    parseVideoUrl "https://www.jw.org/finder?wtlocale=E&lank=bogus" =
      .error (createWOLError .INVALID_QUERY
        ("Unrecognized video identifier format: " ++ "bogus" ++
          ". Expected formats like pub-\x7bid\x7d_\x7btrack\x7d_VIDEO or docid-\x7bid\x7d_\x7btrack\x7d_VIDEO")) := by
  refine ⟨?_, ?_, ?_⟩
  · exact parseVideoUrl_C5.1 "jwb-133" "1" (by decide) (by decide) (by decide) (by decide)
  · exact parseVideoUrl_C5.2.1 "1112024040" "1" (by decide) (by decide) (by decide) (by decide)
  · have h := parseVideoUrl_C5.2.2.1
      { scheme := "https", hostname := "www.jw.org", port := "", pathname := "/finder",
        searchParams := [("wtlocale", "E"), ("lank", "bogus")] }
      "E" "bogus" rfl rfl rfl rfl
    unfold parseVideoUrl
    rw [show parseURL "https://www.jw.org/finder?wtlocale=E&lank=bogus" =
      some { scheme := "https", hostname := "www.jw.org", port := "", pathname := "/finder",
             searchParams := [("wtlocale", "E"), ("lank", "bogus")] } from rfl]
    exact h

/-- C10: the sentence joiner skips a fragment whenever the accumulated
sentence ends with it as a suffix — not only on an exact repeat of the
previous fragment — so a distinct fragment that happens to be a suffix of
the accumulated sentence is silently omitted; concretely, cue texts
"hello world" then "world" collect as two distinct fragments but convert
to just "hello world". -/
theorem vttToPlainText_C10 :
    (∀ (line : String) (rest : List String) (currentSentence : String),
      strEndsWith currentSentence line = true →
      joinSentencesGo (line :: rest) currentSentence = joinSentencesGo rest currentSentence) ∧
    strEndsWith "hello world" "world" = true ∧
    "world" ≠ "hello world" ∧
    vttCollectText (splitLines
      "WEBVTT\n\n00:01.000 --> 00:02.000\nhello world\n\n00:02.000 --> 00:03.000\nworld\n")
      false = ["hello world", "world"] ∧
    vttToPlainText
      "WEBVTT\n\n00:01.000 --> 00:02.000\nhello world\n\n00:02.000 --> 00:03.000\nworld\n" =
      "hello world" := by
  refine ⟨?_, rfl, by decide, by decide, by decide⟩
  intro line rest currentSentence h
  simp [joinSentencesGo, h]

/-- Witness for C10's general skip rule at a concrete accumulator and a
distinct suffix fragment. -/
theorem vttToPlainText_C10_witness :
    strEndsWith "hello world" "world" = true ∧
    joinSentencesGo ["world"] "hello world" = joinSentencesGo [] "hello world" := by
  refine ⟨rfl, ?_⟩
  exact vttToPlainText_C10.1 "world" [] "hello world" rfl

/-- A rethrow wrapper only returns ok when the wrapped body did. -/
theorem rethrowTyped_ok_inv {α : Type} {context : String} {r : Except JSError α} {v : α}
    (h : rethrowTyped context r = .ok v) : r = .ok v := by
  rcases r with e | w
  · rcases e with ⟨code, msg⟩
    rcases code with _ | c <;> simp [rethrowTyped] at h
  · simp [rethrowTyped] at h
    rw [h]

/-- C9: in every successful `getVideoSubtitles` result, format "vtt"
blanks the plain text, format "text" blanks the raw VTT, and format
"both" fills both fields with the cleaned VTT and plain-text conversions
of the (possibly time-filtered) fetched subtitle content. -/
theorem getVideoSubtitles_C9 (url format : String) (startTime endTime : Option ℚ)
    (metaResult : Except JSError PubMediaResponse) (vttResult : Except JSError String)
    (res : VideoSubtitleResult)
    (hok : getVideoSubtitles url format startTime endTime metaResult vttResult = .ok res) :
    (format = "vtt" → res.subtitles.plainText = "") ∧
    (format = "text" → res.subtitles.rawVtt = "") ∧
    (format = "both" →
      ∃ vttFetched duration,
        vttResult = .ok vttFetched ∧
        res.subtitles.rawVtt =
          cleanVtt (effectiveVtt startTime endTime duration vttFetched) ∧
        res.subtitles.plainText =
          vttToPlainText (effectiveVtt startTime endTime duration vttFetched)) := by
  have hbody := rethrowTyped_ok_inv hok
  unfold getVideoSubtitlesBody at hbody
  rcases hp : parseVideoUrl url with e | params <;> rw [hp] at hbody <;> (try dsimp only at hbody)
  · simp at hbody
  rcases metaResult with e | metadata <;> (try dsimp only at hbody)
  · simp at hbody
  rcases hl : lookupLang metadata.files params.language with _ | olist <;>
    rw [hl] at hbody <;> (try dsimp only at hbody)
  · simp at hbody
  rcases olist with _ | vids <;> (try dsimp only at hbody)
  · simp at hbody
  rcases vids with _ | ⟨firstVideo, restVideos⟩ <;> (try dsimp only at hbody)
  · simp at hbody
  rcases hs : firstVideo.subtitles with _ | subInfo <;> rw [hs] at hbody <;> (try dsimp only at hbody)
  · simp at hbody
  rcases vttResult with e | vttFetched <;> (try dsimp only at hbody)
  · simp at hbody
  simp only [Except.ok.injEq] at hbody
  subst hbody
  refine ⟨?_, ?_, ?_⟩
  · intro hf
    subst hf
    simp
  · intro hf
    subst hf
    simp
  · intro hf
    subst hf
    exact ⟨vttFetched, firstVideo.duration, rfl, by simp, by simp⟩

/-- Witness for C9 at format "both" with one video carrying a subtitle
track: both fields are filled and non-empty. -/
theorem getVideoSubtitles_C9_witness :
    getVideoSubtitles "https://www.jw.org/finder?srcid=jwlshare&wtlocale=E&lank=pub-jwbvod25_41_VIDEO"
        "both" none none metaV vttV = .ok resV ∧
    ("both" = "both" →
      ∃ vttFetched duration,
        vttV = Except.ok vttFetched ∧
        resV.subtitles.rawVtt = cleanVtt (effectiveVtt none none duration vttFetched) ∧
        resV.subtitles.plainText = vttToPlainText (effectiveVtt none none duration vttFetched)) ∧
    resV.subtitles.rawVtt ≠ "" ∧ resV.subtitles.plainText ≠ "" := by
  have hok : getVideoSubtitles
      "https://www.jw.org/finder?srcid=jwlshare&wtlocale=E&lank=pub-jwbvod25_41_VIDEO"
      "both" none none metaV vttV = .ok resV := by decide
  refine ⟨hok, ?_, by decide, by decide⟩
  exact (getVideoSubtitles_C9 _ "both" none none metaV vttV resV hok).2.2

/-- A digit character is not whitespace. -/
theorem not_ws_of_digit {c : Char} (h : c.isDigit = true) : c.isWhitespace = false := by
  cases hws : c.isWhitespace
  · rfl
  · exfalso
    have hd : ((c = ' ' ∨ c = '\t') ∨ c = '\x0d') ∨ c = '\n' := by
      simpa [Char.isWhitespace] using hws
    rcases hd with ((h' | h') | h') | h' <;> subst h' <;> exact absurd h (by decide)

/-- A digit character is not a newline. -/
theorem ne_nl_of_digit {c : Char} (h : c.isDigit = true) : c ≠ '\n' := by
  intro hc
  subst hc
  exact absurd h (by decide)

/-- A timestamp-body character is not a newline. -/
theorem ne_nl_of_tsBody {c : Char} (h : isTsBodyChar c = true) : c ≠ '\n' := by
  intro hc
  subst hc
  exact absurd h (by decide)

/-- An empty needle starts every list. -/
theorem listStartsWith_nil (cs : List Char) : listStartsWith cs [] = true := by
  cases cs <;> rfl

/-- A substring occurrence survives prepending. -/
theorem listContainsSub_append_right (xs ys n : List Char)
    (h : listContainsSub ys n = true) : listContainsSub (xs ++ ys) n = true := by
  induction xs with
  | nil => simpa using h
  | cons c cs ih =>
      show (listStartsWith (c :: (cs ++ ys)) n || listContainsSub (cs ++ ys) n) = true
      rw [ih, Bool.or_true]

/-- The arrow needle starts any list beginning with the arrow chars. -/
theorem listStartsWith_arrow (tail : List Char) :
    listStartsWith ('-' :: '-' :: '>' :: tail) "-->".toList = true := by
  show (('-' : Char) == '-' &&
    (('-' : Char) == '-' && (('>' : Char) == '>' && listStartsWith tail []))) = true
  rw [listStartsWith_nil]
  rfl

/-- The arrow token is found when it sits at the head. -/
theorem listContainsSub_arrow_here (tail : List Char) :
    listContainsSub ('-' :: '-' :: '>' :: tail) "-->".toList = true := by
  show (listStartsWith ('-' :: '-' :: '>' :: tail) "-->".toList ||
    listContainsSub ('-' :: '>' :: tail) "-->".toList) = true
  rw [listStartsWith_arrow, Bool.true_or]

/-- A serialized timestamp line contains the arrow token. -/
theorem tsline_contains_arrow (a b : String) :
    strContainsSub (a ++ " --> " ++ b) "-->" = true := by
  unfold strContainsSub
  rw [toList_append, toList_append,
    show (" --> ".toList : List Char) = ' ' :: '-' :: '-' :: '>' :: [' '] from rfl]
  rw [show a.toList ++ (' ' :: '-' :: '-' :: '>' :: [' ']) ++ b.toList =
    (a.toList ++ [' ']) ++ ('-' :: '-' :: '>' :: (' ' :: b.toList)) from by simp]
  exact listContainsSub_append_right _ _ _ (listContainsSub_arrow_here _)

/-- Decompose a shaped timestamp into digit run, colon and body run. -/
theorem tsShaped_decomp (ts : String) (h : tsShaped ts = true) :
    ∃ ds body, ts.toList = ds ++ ':' :: body ∧ ds ≠ [] ∧
      (∀ c ∈ ds, c.isDigit = true) ∧ body ≠ [] ∧
      (∀ c ∈ body, isTsBodyChar c = true) := by
  unfold tsShaped at h
  rcases hdrop : ts.toList.dropWhile Char.isDigit with _ | ⟨c, rest⟩ <;> rw [hdrop] at h
  · simp at h
  · simp only [Bool.and_eq_true, decide_eq_true_eq, beq_iff_eq, List.all_eq_true] at h
    obtain ⟨hne, ⟨hc, hrestne⟩, hall⟩ := h
    subst hc
    refine ⟨ts.toList.takeWhile Char.isDigit, rest, ?_, hne, ?_, hrestne, hall⟩
    · conv_lhs => rw [← List.takeWhile_append_dropWhile Char.isDigit ts.toList]
      rw [hdrop]
    · intro x hx
      exact List.mem_takeWhile_imp hx

/-- matchTsToken consumes a shaped timestamp whole and returns the rest. -/
theorem matchTsToken_shape (ds body tail : List Char)
    (hds : ds ≠ []) (hdsd : ∀ c ∈ ds, c.isDigit = true)
    (hbody : body ≠ []) (hbodyc : ∀ c ∈ body, isTsBodyChar c = true)
    (htail : ∀ c, tail.head? = some c → isTsBodyChar c = false) :
    matchTsToken (ds ++ ':' :: (body ++ tail)) = some (ds ++ ':' :: body, tail) := by
  have h1 := takeWhile_dropWhile_append (p := Char.isDigit) (l := ds)
    (r := ':' :: (body ++ tail)) hdsd
    (by
      intro c hc
      simp only [List.head?] at hc
      rw [← Option.some_inj.mp hc]
      decide)
  have h2 := takeWhile_dropWhile_append (p := isTsBodyChar) (l := body) (r := tail)
    hbodyc htail
  unfold matchTsToken
  rw [h1.1, h1.2, if_neg hds]
  dsimp only
  rw [h2.1, h2.2, if_pos (by simp [List.isEmpty_iff, hbody])]

/-- The whitespace skip after the first timestamp token of the arrow
pattern. -/
theorem dropWhile_ws_arrow (tail : List Char) :
    (' ' :: '-' :: '-' :: '>' :: ' ' :: tail).dropWhile Char.isWhitespace =
      '-' :: '-' :: '>' :: ' ' :: tail := by
  rw [List.dropWhile_cons, if_pos (by decide), List.dropWhile_cons, if_neg (by decide)]

/-- matchArrowAt consumes a whole serialized timestamp line. -/
theorem matchArrowAt_tsline (ts1 ts2 : String)
    (h1 : tsShaped ts1 = true) (h2 : tsShaped ts2 = true) :
    matchArrowAt ((ts1 ++ " --> " ++ ts2).toList) = some (ts1.toList, ts2.toList) := by
  obtain ⟨ds1, b1, he1, hne1, hd1, hb1ne, hb1⟩ := tsShaped_decomp ts1 h1
  obtain ⟨ds2, b2, he2, hne2, hd2, hb2ne, hb2⟩ := tsShaped_decomp ts2 h2
  have hline : (ts1 ++ " --> " ++ ts2).toList =
      ds1 ++ ':' :: (b1 ++ (' ' :: '-' :: '-' :: '>' :: ' ' :: ts2.toList)) := by
    rw [toList_append, toList_append, he1,
      show (" --> ".toList : List Char) = ' ' :: '-' :: '-' :: '>' :: [' '] from rfl]
    simp
  unfold matchArrowAt
  rw [hline, matchTsToken_shape ds1 b1 _ hne1 hd1 hb1ne hb1
    (by
      intro c hc
      simp only [List.head?] at hc
      rw [← Option.some_inj.mp hc]
      decide)]
  dsimp only
  rw [dropWhile_ws_arrow, if_pos (listStartsWith_arrow _),
    show (('-' :: '-' :: '>' :: ' ' :: ts2.toList).drop 3) = ' ' :: ts2.toList from rfl]
  obtain ⟨d2, ds2tl, rfl⟩ := List.exists_cons_of_ne_nil hne2
  have hd2head : d2.isDigit = true := hd2 d2 (by simp)
  have hdrop2 : (' ' :: ts2.toList).dropWhile Char.isWhitespace = ts2.toList := by
    rw [List.dropWhile_cons, if_pos (by decide)]
    have := takeWhile_dropWhile_append (p := Char.isWhitespace) (l := ([] : List Char))
      (r := ts2.toList) (by simp)
      (by
        intro c hc
        rw [he2] at hc
        simp only [List.cons_append, List.head?] at hc
        rw [← Option.some_inj.mp hc]
        exact not_ws_of_digit hd2head)
    simpa using this.2
  rw [hdrop2, he2,
    show (d2 :: ds2tl) ++ ':' :: b2 = (d2 :: ds2tl) ++ ':' :: (b2 ++ []) from by simp,
    matchTsToken_shape (d2 :: ds2tl) b2 [] hne2 hd2 hb2ne hb2 (by intro c hc; simp at hc)]
  dsimp only
  simp only [List.append_nil, Option.some.injEq, Prod.mk.injEq]
  exact ⟨he1.symm, trivial⟩

/-- An arrow match at the head is the search result. -/
theorem searchArrow_of_matchAt {cs : List Char} {r : List Char × List Char}
    (hne : cs ≠ []) (h : matchArrowAt cs = some r) : searchArrow cs = some r := by
  cases cs with
  | nil => exact absurd rfl hne
  | cons c rest =>
      unfold searchArrow
      rw [h]

/-- The arrow search on a whole serialized timestamp line returns its two
timestamps. -/
theorem searchArrow_tsline (ts1 ts2 : String)
    (h1 : tsShaped ts1 = true) (h2 : tsShaped ts2 = true) :
    searchArrow ((ts1 ++ " --> " ++ ts2).toList) = some (ts1.toList, ts2.toList) := by
  apply searchArrow_of_matchAt ?_ (matchArrowAt_tsline ts1 ts2 h1 h2)
  obtain ⟨ds1, b1, he1, hne1, _, _, _⟩ := tsShaped_decomp ts1 h1
  intro hc
  rw [toList_append, toList_append, he1] at hc
  simp at hc

/-- A leading blank line is consumed without output. -/
theorem processCues_cons_empty (s e : ℚ) (rest : List String) :
    processCues s e ("" :: rest) = processCues s e rest := by
  simp only [processCues]
  rw [if_neg (by decide)]

/-- One cue block is kept or dropped whole by the retention condition. -/
theorem processCues_block (s e : ℚ) (c : VttCue) (restLines : List String)
    (hts1 : tsShaped c.startTs = true) (hts2 : tsShaped c.endTs = true)
    (htext : ∀ l ∈ c.text, isCueTextLine l = true) :
    processCues s e (cueLines c ++ restLines) =
      if keepCue s e c then cueLines c ++ processCues s e restLines
      else processCues s e restLines := by
  have hlist : cueLines c ++ restLines =
      cueTimestampLine c :: (c.text ++ ("" :: restLines)) := by
    simp [cueLines]
  have htw := takeWhile_dropWhile_append (α := String) (p := isCueTextLine)
    (l := c.text) (r := "" :: restLines) htext
    (by
      intro x hx
      simp only [List.head?] at hx
      rw [← Option.some_inj.mp hx]
      decide)
  rw [hlist]
  simp only [processCues]
  rw [if_pos (show strContainsSub (cueTimestampLine c) "-->" = true from
    tsline_contains_arrow c.startTs c.endTs)]
  rw [show searchArrow (cueTimestampLine c).toList = some (c.startTs.toList, c.endTs.toList) from
    searchArrow_tsline c.startTs c.endTs hts1 hts2]
  dsimp only
  rw [String.asString_toList, String.asString_toList, htw.1, htw.2, processCues_cons_empty]
  unfold keepCue cueLines
  by_cases hk : (jsGe (parseVttTimestamp c.endTs) s && jsLe (parseVttTimestamp c.startTs) e) = true
  · rw [if_pos hk, if_pos hk]
    simp
  · rw [if_neg hk, if_neg hk]

/-- The cue loop keeps exactly the cues passing the retention condition. -/
theorem processCues_flatten (s e : ℚ) :
    ∀ (cues : List VttCue), (∀ c ∈ cues, cueWellFormed c) →
      processCues s e ((cues.map cueLines).flatten) =
        (((cues.filter (keepCue s e)).map cueLines).flatten)
  | [], _ => by simp [processCues]
  | c :: cs, hwf => by
      obtain ⟨hts1, hts2, htext, _⟩ := hwf c (by simp)
      have ih := processCues_flatten s e cs (fun d hd => hwf d (by simp [hd]))
      simp only [List.map_cons, List.flatten_cons]
      rw [processCues_block s e c _ hts1 hts2 htext, ih]
      by_cases hk : keepCue s e c = true
      · rw [if_pos hk, List.filter_cons_of_pos hk]
        simp
      · rw [if_neg hk, List.filter_cons_of_neg (by simpa using hk)]

/-- The header skip drops exactly the two header lines of a serialized
cue file. -/
theorem skipVttHeader_vtt (cues : List VttCue) :
    skipVttHeader ("WEBVTT" :: "" :: (cues.map cueLines).flatten) =
      (cues.map cueLines).flatten := by
  unfold skipVttHeader
  rw [List.dropWhile_cons, if_pos (by decide), List.dropWhile_cons, if_pos (by decide)]
  cases cues with
  | nil => rfl
  | cons c cs =>
      simp only [List.map_cons, List.flatten_cons]
      rw [show cueLines c ++ (cs.map cueLines).flatten =
        cueTimestampLine c :: (c.text ++ ("" :: (cs.map cueLines).flatten)) from by simp [cueLines]]
      rw [List.dropWhile_cons,
        if_neg (by simp [tsline_contains_arrow c.startTs c.endTs, cueTimestampLine])]

/-- splitOnChar never returns the empty list of groups. -/
theorem splitOnChar_ne_nil (sep : Char) : ∀ cs, splitOnChar sep cs ≠ []
  | [] => by simp [splitOnChar]
  | c :: rest => by
      rw [splitOnChar]
      rcases h : splitOnChar sep rest with _ | ⟨g, gs⟩
      · exact absurd h (splitOnChar_ne_nil sep rest)
      · dsimp only
        split <;> simp

/-- A separator-free list is one group. -/
theorem splitOnChar_no_sep (sep : Char) :
    ∀ (l : List Char), (∀ c ∈ l, c ≠ sep) → splitOnChar sep l = [l]
  | [], _ => rfl
  | c :: cs, h => by
      rw [splitOnChar, splitOnChar_no_sep sep cs (fun x hx => h x (by simp [hx]))]
      dsimp only
      have hc : (c == sep) = false := by simpa using h c (by simp)
      rw [hc]
      simp

/-- Splitting after a separator-free group peels that group off. -/
theorem splitOnChar_append_sep (sep : Char) :
    ∀ (l X : List Char), (∀ c ∈ l, c ≠ sep) →
      splitOnChar sep (l ++ sep :: X) = l :: splitOnChar sep X
  | [], X, _ => by
      show splitOnChar sep (sep :: X) = [] :: splitOnChar sep X
      rw [splitOnChar]
      rcases h : splitOnChar sep X with _ | ⟨g, gs⟩
      · exact absurd h (splitOnChar_ne_nil sep X)
      · dsimp only
        simp
  | c :: cs, X, h => by
      show splitOnChar sep (c :: (cs ++ sep :: X)) = (c :: cs) :: splitOnChar sep X
      rw [splitOnChar, splitOnChar_append_sep sep cs X (fun x hx => h x (by simp [hx]))]
      dsimp only
      have hc : (c == sep) = false := by simpa using h c (by simp)
      rw [hc]
      simp

/-- joinNl of at least two lines unfolds once. -/
theorem joinNl_cons_cons (l l2 : String) (rest : List String) :
    joinNl (l :: l2 :: rest) = l ++ "\n" ++ joinNl (l2 :: rest) := rfl

/-- splitLines inverts joinNl on nonempty newline-free line lists. -/
theorem splitLines_joinNl : ∀ (lines : List String), lines ≠ [] →
    (∀ l ∈ lines, ∀ ch ∈ l.toList, ch ≠ '\n') →
    splitLines (joinNl lines) = lines
  | [], h, _ => absurd rfl h
  | [l], _, hno => by
      unfold splitLines joinNl
      rw [splitOnChar_no_sep '\n' l.toList (fun c hc => hno l (by simp) c hc)]
      simp only [List.map_cons, List.map_nil]
      rw [String.asString_toList]
  | l :: l2 :: rest, _, hno => by
      have ih := splitLines_joinNl (l2 :: rest) (by simp)
        (fun x hx => hno x (by simp at hx ⊢; tauto))
      unfold splitLines at ih ⊢
      rw [joinNl_cons_cons, toList_append, toList_append,
        show ("\n".toList : List Char) = ['\n'] from rfl,
        show l.toList ++ ['\n'] ++ (joinNl (l2 :: rest)).toList =
          l.toList ++ '\n' :: (joinNl (l2 :: rest)).toList from by simp,
        splitOnChar_append_sep '\n' l.toList _ (fun c hc => hno l (by simp) c hc)]
      simp only [List.map_cons]
      rw [String.asString_toList, ih]

/-- No newline occurs in a shaped timestamp. -/
theorem no_nl_of_tsShaped {ts : String} (h : tsShaped ts = true) :
    ∀ ch ∈ ts.toList, ch ≠ '\n' := by
  obtain ⟨ds, b, he, _, hd, _, hb⟩ := tsShaped_decomp ts h
  rw [he]
  intro ch hch
  rcases List.mem_append.mp hch with hch | hch
  · exact ne_nl_of_digit (hd ch hch)
  · rcases List.mem_cons.mp hch with rfl | hch
    · decide
    · exact ne_nl_of_tsBody (hb ch hch)

/-- No newline occurs in the serialized lines of a well-formed cue. -/
theorem no_nl_cueLines {c : VttCue} (hwf : cueWellFormed c) :
    ∀ l ∈ cueLines c, ∀ ch ∈ l.toList, ch ≠ '\n' := by
  obtain ⟨h1, h2, _, hnl⟩ := hwf
  intro l hl
  unfold cueLines at hl
  rcases List.mem_cons.mp hl with rfl | hl
  · intro ch hch
    unfold cueTimestampLine at hch
    rw [toList_append, toList_append] at hch
    have harrow : ∀ x ∈ (" --> ".toList : List Char), x ≠ '\n' := by decide
    rcases List.mem_append.mp hch with hch | hch
    · rcases List.mem_append.mp hch with hch | hch
      · exact no_nl_of_tsShaped h1 ch hch
      · exact harrow ch hch
    · exact no_nl_of_tsShaped h2 ch hch
  · rcases List.mem_append.mp hl with hl | hl
    · exact hnl l hl
    · have hl2 := List.mem_singleton.mp hl
      subst hl2
      intro ch hch
      simp at hch

/-- No newline occurs in any line of a serialized cue file. -/
theorem no_nl_allLines (cues : List VttCue) (hwf : ∀ c ∈ cues, cueWellFormed c) :
    ∀ l ∈ ("WEBVTT" :: "" :: (cues.map cueLines).flatten), ∀ ch ∈ l.toList, ch ≠ '\n' := by
  intro l hl
  simp only [List.mem_cons] at hl
  rcases hl with rfl | rfl | hl
  · decide
  · decide
  · obtain ⟨ls, hls, hlmem⟩ := List.mem_flatten.mp hl
    obtain ⟨c, hc, rfl⟩ := List.mem_map.mp hls
    exact no_nl_cueLines (hwf c hc) l hlmem

/-- The filter keeps exactly the overlapping cues of a well-formed VTT:
the output is the re-serialization (header preserved, trimmed) of the
cues passing the retention condition. -/
theorem filterVtt_ofCues (cues : List VttCue) (startTime endTime : ℚ)
    (hwf : ∀ c ∈ cues, cueWellFormed c) :
    filterVttByTimeRange (vttOfCues cues) startTime endTime =
      trimString (vttOfCues (cues.filter (keepCue startTime endTime))) := by
  have hsplit : splitLines (vttOfCues cues) =
      "WEBVTT" :: "" :: (cues.map cueLines).flatten :=
    splitLines_joinNl ("WEBVTT" :: "" :: (cues.map cueLines).flatten) (by simp)
      (no_nl_allLines cues hwf)
  unfold filterVttByTimeRange
  rw [hsplit, skipVttHeader_vtt, processCues_flatten startTime endTime cues hwf]
  rfl

/-- The parsed value of the example cue start timestamp. -/
theorem parse_ts_10 : parseVttTimestamp "00:10.000" = some 10 := by
  have h : (10 : ℚ) =
      ((0 : ℕ) : ℚ) * 60 + (((10 : ℕ) : ℚ) + ((0 : ℕ) : ℚ) / (10 : ℚ) ^ (3 : ℕ)) := by
    push_cast
    norm_num
  rw [h]
  rfl

/-- The parsed value of the example cue end timestamp. -/
theorem parse_ts_15 : parseVttTimestamp "00:15.000" = some 15 := by
  have h : (15 : ℚ) =
      ((0 : ℕ) : ℚ) * 60 + (((15 : ℕ) : ℚ) + ((0 : ℕ) : ℚ) / (10 : ℚ) ^ (3 : ℕ)) := by
    push_cast
    norm_num
  rw [h]
  rfl

/-- An HH:MM:SS.mmm timestamp parses through the three-part branch. -/
theorem parse_ts_hms : parseVttTimestamp "01:02:03.500" = some (3723.5 : ℚ) := by
  have h : (3723.5 : ℚ) =
      ((1 : ℕ) : ℚ) * 3600 + ((2 : ℕ) : ℚ) * 60 +
        (((3 : ℕ) : ℚ) + ((500 : ℕ) : ℚ) / (10 : ℚ) ^ (3 : ℕ)) := by
    push_cast
    norm_num
  rw [h]
  rfl

/-- Retention of the 10..15 cue for a window, computed on the parsed
values. -/
theorem keepCue_1015 (s e : ℚ) :
    keepCue s e cue1015 = (jsGe (some 15) s && jsLe (some 10) e) := by
  unfold keepCue
  rw [show cue1015.endTs = "00:15.000" from rfl, show cue1015.startTs = "00:10.000" from rfl,
    parse_ts_15, parse_ts_10]

/-- C4: on every well-formed VTT (serialized cue list), a cue is retained
exactly when `cueEnd >= startTime && cueStart <= endTime` on its parsed
timestamps; timestamps parse from both MM:SS.mmm and HH:MM:SS.mmm forms;
and the cue spanning 10..15 is retained for the windows [5,12], [12,20]
and [0,100] and dropped for [0,5] and [16,20]. -/
theorem filterVtt_C4 (cues : List VttCue) (startTime endTime : ℚ)
    (hwf : ∀ c ∈ cues, cueWellFormed c) :
    filterVttByTimeRange (vttOfCues cues) startTime endTime =
      trimString (vttOfCues (cues.filter (keepCue startTime endTime))) ∧
    (∀ c : VttCue, keepCue startTime endTime c =
      (jsGe (parseVttTimestamp c.endTs) startTime &&
        jsLe (parseVttTimestamp c.startTs) endTime)) ∧
    parseVttTimestamp "00:10.000" = some 10 ∧
    parseVttTimestamp "01:02:03.500" = some (3723.5 : ℚ) ∧
    keepCue 5 12 cue1015 = true ∧
    keepCue 12 20 cue1015 = true ∧
    keepCue 0 100 cue1015 = true ∧
    keepCue 0 5 cue1015 = false ∧
    keepCue 16 20 cue1015 = false ∧
    filterVttByTimeRange (vttOfCues [cue1015]) 5 12 =
      "WEBVTT\n\n00:10.000 --> 00:15.000\nHello cue" ∧
    filterVttByTimeRange (vttOfCues [cue1015]) 12 20 =
      "WEBVTT\n\n00:10.000 --> 00:15.000\nHello cue" ∧
    filterVttByTimeRange (vttOfCues [cue1015]) 0 100 =
      "WEBVTT\n\n00:10.000 --> 00:15.000\nHello cue" ∧
    filterVttByTimeRange (vttOfCues [cue1015]) 0 5 = "WEBVTT" ∧
    filterVttByTimeRange (vttOfCues [cue1015]) 16 20 = "WEBVTT" := by
  have hwfc : cueWellFormed cue1015 := ⟨by decide, by decide, by decide, by decide⟩
  have hwf1015 : ∀ c ∈ [cue1015], cueWellFormed c := by
    intro c hc
    rw [List.mem_singleton.mp hc]
    exact hwfc
  have hkeep : ∀ s e : ℚ, keepCue s e cue1015 = (jsGe (some 15) s && jsLe (some 10) e) :=
    keepCue_1015
  have hk1 : keepCue 5 12 cue1015 = true := by rw [hkeep]; decide
  have hk2 : keepCue 12 20 cue1015 = true := by rw [hkeep]; decide
  have hk3 : keepCue 0 100 cue1015 = true := by rw [hkeep]; decide
  have hk4 : keepCue 0 5 cue1015 = false := by rw [hkeep]; decide
  have hk5 : keepCue 16 20 cue1015 = false := by rw [hkeep]; decide
  have hpos : ∀ s e : ℚ, keepCue s e cue1015 = true →
      filterVttByTimeRange (vttOfCues [cue1015]) s e =
        "WEBVTT\n\n00:10.000 --> 00:15.000\nHello cue" := by
    intro s e hk
    refine (filterVtt_ofCues [cue1015] s e hwf1015).trans ?_
    rw [show [cue1015].filter (keepCue s e) = [cue1015] from by
      rw [List.filter_cons_of_pos hk, List.filter_nil]]
    decide
  have hneg : ∀ s e : ℚ, keepCue s e cue1015 = false →
      filterVttByTimeRange (vttOfCues [cue1015]) s e = "WEBVTT" := by
    intro s e hk
    refine (filterVtt_ofCues [cue1015] s e hwf1015).trans ?_
    rw [show [cue1015].filter (keepCue s e) = [] from by
      rw [List.filter_cons_of_neg (by simp [hk]), List.filter_nil]]
    decide
  exact ⟨filterVtt_ofCues cues startTime endTime hwf, fun c => rfl, parse_ts_10, parse_ts_hms,
    hk1, hk2, hk3, hk4, hk5, hpos 5 12 hk1, hpos 12 20 hk2, hpos 0 100 hk3,
    hneg 0 5 hk4, hneg 16 20 hk5⟩

/-- Witness for C4 at the concrete single-cue file. -/
theorem filterVtt_C4_witness :
    (∀ c ∈ [cue1015], cueWellFormed c) ∧
    filterVttByTimeRange (vttOfCues [cue1015]) 5 12 =
      trimString (vttOfCues ([cue1015].filter (keepCue 5 12))) := by
  have hwfc : cueWellFormed cue1015 := ⟨by decide, by decide, by decide, by decide⟩
  have hwf1015 : ∀ c ∈ [cue1015], cueWellFormed c := by
    intro c hc
    rw [List.mem_singleton.mp hc]
    exact hwfc
  exact ⟨hwf1015, (filterVtt_C4 [cue1015] 5 12 hwf1015).1⟩

end Wol
